import Mathlib

/-!
# esp8266_deauther: `attack_deauth.h`

A shallow embedding of the deauthentication attack core
(`src/esp8266_deauther/attack_deauth.h`) and proofs about it.

Conventions of the embedding

* `unsigned long` is 32 bits wide on the target.  Values are natural numbers;
  every subtraction, addition and multiplication the source performs on such
  values is reduced modulo `2 ^ 32` at the place where the source performs it.
* A byte (`uint8_t`) is a natural number; byte strings are lists.
* `send`, the raw transmit primitive, is external. It is a parameter of every
  function that reaches it, and every call made to it is appended to the field
  `air` of the system state.
* `debug`, `debugln`, `debugF`, `debuglnF` write to the output sink.  Every call
  is appended to the field `sink` of the system state, with its argument kept
  symbolically (the formatting helpers of `strh` are not evaluated).
* `millis()` is external. Each place where the source calls it is a parameter
  of the embedded function; `start` and `tick` are the instances in which the
  clock shows one value for the whole call.
* Undefined behaviour (division by zero, dereferencing the null pointer that
  `iterate()` returns on an exhausted cursor) is the result `none`.
* The list that a caller hands to `startDeauth` is an object of its own, not the
  list inside `deauth_data`.
-/

namespace Deauther

/-! ## Machine words -/

/-- Difference of two `w`-bit unsigned values, as the machine computes it. -/
def wrapSub (w a b : Nat) : Nat := (a + (2 ^ w - b % 2 ^ w)) % 2 ^ w

/-- Sum of two `w`-bit unsigned values, as the machine computes it. -/
def wrapAdd (w a b : Nat) : Nat := (a + b) % 2 ^ w

/-- Width of `unsigned long` on the target. -/
def ULONG_BITS : Nat := 32

/-- The `unsigned long` expression `a - b`. -/
def usub (a b : Nat) : Nat := wrapSub ULONG_BITS a b

/-- The `unsigned long` expression `a + b`. -/
def uadd (a b : Nat) : Nat := wrapAdd ULONG_BITS a b

/-! ## The deauthentication packet -/

/-- Initial value of the global `deauth_pkt` (source lines 10-18). -/
def deauth_pkt : List Nat :=
  [ 0xC0, 0x00,
    0x00, 0x00,
    0xFF, 0xFF, 0xFF, 0xFF, 0xFF, 0xFF,
    0xCC, 0xCC, 0xCC, 0xCC, 0xCC, 0xCC,
    0xCC, 0xCC, 0xCC, 0xCC, 0xCC, 0xCC,
    0x00, 0x00,
    0x01, 0x00 ]

/-- The constant `sizeof(deauth_pkt)`. -/
def sizeof_deauth_pkt : Nat := deauth_pkt.length

/-- The call `memcpy(&dst[off], src, n)`: bytes `off .. off+n-1` of `dst` are
replaced by the first `n` bytes of `src`.  The caller guarantees that `src`
holds `n` bytes and that `off + n` does not exceed the size of `dst`. -/
def memcpy (dst : List Nat) (off : Nat) (src : List Nat) (n : Nat) : List Nat :=
  dst.take off ++ src.take n ++ dst.drop (off + n)

/-- One call of the external `send(ch, buf, len)`, as it is recorded. -/
structure SendCall where
  ch : Nat
  buf : List Nat
  len : Nat
deriving DecidableEq

/-- The external transmit primitive: `true` when the frame was accepted. -/
abbrev Transport := Nat → List Nat → Nat → Bool

/-- The values handed to the output functions. -/
inductive Printable where
  | str (s : String)
  | num (n : Nat)
  | left (width : Nat) (s : String)
  | time (ms : Nat)
  | mac (m : List Nat)
deriving DecidableEq

/-- One call on the output sink. -/
inductive Out where
  | debug (p : Printable)
  | debugln (p : Printable)
  | debugF (s : String)
  | debuglnF (s : String)
  | newline
deriving DecidableEq

/-- Modelled from the spec: the class `Target` is not part of the sources at
hand. The spec gives it as the triple of transmitter address, receiver address
and channel; the fields carry the names of the accessors the source calls. -/
structure Target where
  getFrom : List Nat
  getTo : List Nat
  getCh : Nat
deriving DecidableEq

/-- Modelled from the spec: the class `TargetList` is not part of the sources at
hand. The spec gives it as an ordered sequence of targets with a cursor:
`list` holds the targets in insertion order, `pos` counts the targets already
visited in the current pass. -/
structure TargetList where
  list : List Target
  pos : Nat
deriving DecidableEq

namespace TargetList

/-- Modelled from the spec: `count()`, the source's `size()`. -/
def size (t : TargetList) : Nat := t.list.length

/-- Modelled from the spec: `reset()`, the source's `begin()`; positions the
cursor before the first element. -/
def begin (t : TargetList) : TargetList := { t with pos := 0 }

/-- Modelled from the spec: `hasNext()`, the source's `available()`; true if a
not-yet-visited element remains in the current pass. -/
def available (t : TargetList) : Bool := decide (t.pos < t.list.length)

/-- Modelled from the spec: `next()`, the source's `iterate()`; returns the next
target and advances the cursor. On an exhausted cursor there is no target to
return (the null pointer) and the cursor stays. -/
def iterate (t : TargetList) : Option Target × TargetList :=
  match t.list.get? t.pos with
  | some x => (some x, { t with pos := t.pos + 1 })
  | none => (none, t)

/-- Modelled from the spec: `clear()`; releases all targets, count becomes 0. -/
def clear (_t : TargetList) : TargetList := { list := [], pos := 0 }

/-- Modelled from the spec: `moveFrom(other)`; the targets of `other` pass to the
receiver, behind those it already holds and in their order, and `other` is
left empty. The result is the pair of the receiver and `other`. -/
def moveFrom (t other : TargetList) : TargetList × TargetList :=
  ({ t with list := t.list ++ other.list }, { list := [], pos := 0 })

end TargetList

/-- The record `deauth_attack_data_t` (source lines 21-35). -/
structure deauth_attack_data_t where
  targets : TargetList
  deauth : Bool
  disassoc : Bool
  rate : Nat
  timeout : Nat
  pkts : Nat
  start_time : Nat
  output_time : Nat
  pkts_sent : Nat
  pkts_per_second : Nat
  pkt_time : Nat
  pkt_interval : Nat
  silent : Bool
deriving DecidableEq

/-- The globals of the translation unit together with the record of what the
code did to its two external sinks. -/
structure Sys where
  pkt : List Nat
  deauth_data : deauth_attack_data_t
  sink : List Out
  air : List SendCall
deriving DecidableEq

/-- The program state before `main`: `deauth_pkt` has its initialiser, the
global `deauth_data` is zero-initialised and its list is empty. -/
def Sys.init : Sys :=
  { pkt := deauth_pkt
    deauth_data :=
      { targets := { list := [], pos := 0 }
        deauth := false, disassoc := false
        rate := 0, timeout := 0, pkts := 0
        start_time := 0, output_time := 0
        pkts_sent := 0, pkts_per_second := 0
        pkt_time := 0, pkt_interval := 0
        silent := false }
    sink := []
    air := [] }

/-! ## Send functions -/

/-- The body shared by `send_deauth` and `send_disassoc` after byte 0 has been
written: the three `memcpy` calls, in source order. -/
def fill_addresses (buf src dst : List Nat) : List Nat :=
  memcpy (memcpy (memcpy buf 10 src 6) 16 src 6) 4 dst 6

/-- The function `send_deauth` (source lines 40-46). -/
def send_deauth (send : Transport) (ch : Nat) (src dst : List Nat) (s : Sys) : Bool × Sys :=
  let buf := fill_addresses (s.pkt.set 0 0xc0) src dst
  (send ch buf sizeof_deauth_pkt,
   { s with pkt := buf, air := s.air ++ [⟨ch, buf, sizeof_deauth_pkt⟩] })

/-- The function `send_disassoc` (source lines 48-54). -/
def send_disassoc (send : Transport) (ch : Nat) (src dst : List Nat) (s : Sys) : Bool × Sys :=
  let buf := fill_addresses (s.pkt.set 0 0xa0) src dst
  (send ch buf sizeof_deauth_pkt,
   { s with pkt := buf, air := s.air ++ [⟨ch, buf, sizeof_deauth_pkt⟩] })

/-- The buffer contents that calls of the two send functions with six-byte
addresses can leave behind, starting from the initialiser. -/
inductive PktReachable : List Nat → Prop where
  | init : PktReachable deauth_pkt
  | deauth (send : Transport) (ch : Nat) (src dst : List Nat) (s : Sys) :
      PktReachable s.pkt → src.length = 6 → dst.length = 6 →
      PktReachable (send_deauth send ch src dst s).2.pkt
  | disassoc (send : Transport) (ch : Nat) (src dst : List Nat) (s : Sys) :
      PktReachable s.pkt → src.length = 6 → dst.length = 6 →
      PktReachable (send_disassoc send ch src dst s).2.pkt

/-! ## Attack functions -/

/-- The function `stopDeauth` (source lines 130-139). -/
def stopDeauth (s : Sys) : Sys :=
  let d := s.deauth_data
  if d.targets.size > 0 then
    let sent := uadd d.pkts_sent d.pkts_per_second
    { s with
      deauth_data := { d with pkts_sent := sent, targets := d.targets.clear }
      sink := s.sink ++
        [Out.debugF "Deauth attack stopped. Sent ",
         Out.debug (Printable.num sent),
         Out.debuglnF " packets."] }
  else s

/-- The output calls of one pass of the loop body (source lines 102-107). -/
def targetLine (x : Target) : List Out :=
  [Out.debugF "- transmitter ",
   Out.debug (Printable.mac x.getFrom),
   Out.debugF ", receiver ",
   Out.debug (Printable.mac x.getTo),
   Out.debugF ", channel ",
   Out.debugln (Printable.num x.getCh)]

/-- The loop `while (targets.available()) ...` (source lines 100-108). The first
argument bounds the number of passes; `printTargets_fuel` shows that
`size - pos` passes reach the exit of the loop. -/
def printTargets : Nat → TargetList → List Out → Option (TargetList × List Out)
  | 0, t, o => some (t, o)
  | fuel + 1, t, o =>
    if t.available then
      match t.iterate with
      | (some x, t1) => printTargets fuel t1 (o ++ targetLine x)
      | (none, _) => none
    else some (t, o)

/-- The mode line (source lines 75-81). -/
def modeLine (deauth disassoc : Bool) : List Out :=
  if deauth && disassoc then [Out.debuglnF "deauthentication and disassociation"]
  else if deauth then [Out.debuglnF "deauthentication"]
  else if disassoc then [Out.debuglnF "disassociation"]
  else []

/-- The output calls of source lines 72-95, up to the target count. -/
def summaryHead (size : Nat) (deauth disassoc : Bool) (rate timeout pkts : Nat) : List Out :=
  [Out.debuglnF "[ ===== Deauth Attack ===== ]",
   Out.debug (Printable.left 16 "Mode:")] ++
  modeLine deauth disassoc ++
  [Out.debug (Printable.left 16 "Packets/second:"),
   Out.debugln (Printable.num rate),
   Out.debug (Printable.left 16 "Timeout:"),
   if timeout > 0 then Out.debugln (Printable.time timeout)
   else Out.debugln (Printable.str "-"),
   Out.debug (Printable.left 16 "Max. packets:"),
   if pkts > 0 then Out.debugln (Printable.num pkts)
   else Out.debugln (Printable.str "-"),
   Out.debug (Printable.left 16 "Targets:"),
   Out.debugln (Printable.num size)]

/-- The output calls of source lines 110-112. -/
def summaryTail : List Out :=
  [Out.newline, Out.debuglnF "Type 'stop' to stop the attack", Out.newline]

/-- The right-hand side of source line 126, `(1000/rate) * (deauth+disassoc)`,
for `rate > 0`. -/
def pktInterval (rate : Nat) (deauth disassoc : Bool) : Nat :=
  ((1000 / rate) * (deauth.toNat + disassoc.toNat)) % 2 ^ ULONG_BITS

/-- The function `startDeauth` (source lines 57-128). `m1` and `m2` are the
values of the two `millis()` calls. The result carries the new state and the
caller's list, which the function receives by reference. -/
def startDeauth (targets : TargetList) (deauth disassoc : Bool)
    (rate timeout pkts : Nat) (silent : Bool) (m1 m2 : Nat) (s : Sys) :
    Option (Sys × TargetList) :=
  if targets.size = 0 then
    some ({ s with sink := s.sink ++ [Out.debuglnF "ERROR: No targets specified"] }, targets)
  else if !deauth && !disassoc then
    some ({ s with sink := s.sink ++ [Out.debuglnF "ERROR: Invalid mode"] }, targets)
  else
    let s1 := stopDeauth s
    let o1 := s1.sink ++ summaryHead targets.size deauth disassoc rate timeout pkts
    let t1 := targets.begin
    match printTargets (t1.size - t1.pos) t1 o1 with
    | none => none
    | some (t2, o2) =>
      let o3 := o2 ++ summaryTail
      let moved := s1.deauth_data.targets.moveFrom t2
      if rate = 0 then none
      else
        some
          ({ s1 with
             deauth_data :=
               { targets := moved.1
                 deauth := deauth
                 disassoc := disassoc
                 rate := rate
                 timeout := timeout
                 pkts := pkts
                 start_time := m1
                 output_time := m2
                 pkts_sent := 0
                 pkts_per_second := 0
                 pkt_time := 0
                 pkt_interval := pktInterval rate deauth disassoc
                 silent := silent }
             sink := o3 },
           moved.2)

/-- The status block of `updateDeauth` (source lines 151-163). `m2` is the value
of `millis()` in the condition, `m3` the one stored in `output_time`. -/
def statusStep (m2 m3 : Nat) (s : Sys) : Sys :=
  let d := s.deauth_data
  if !d.silent && decide (usub m2 d.output_time ≥ 1000) then
    let sent := uadd d.pkts_sent d.pkts_per_second
    { s with
      deauth_data :=
        { d with pkts_sent := sent, output_time := m3, pkts_per_second := 0 }
      sink := s.sink ++
        [Out.debugF "[Deauth attack: ",
         Out.debug (Printable.num d.pkts_per_second),
         Out.debugF " pkts/s, ",
         Out.debug (Printable.num sent),
         Out.debuglnF " total]"] }
  else s

/-- Source line 168: `if (d.deauth) d.pkts_per_second += send_deauth(...)`, where
`t` is the pointer that `iterate()` returned. -/
def deauthLine (send : Transport) (t : Option Target) (s : Sys) : Option Sys :=
  if s.deauth_data.deauth then
    match t with
    | none => none
    | some x =>
      let r := send_deauth send x.getCh x.getFrom x.getTo s
      some { r.2 with
             deauth_data :=
               { r.2.deauth_data with
                 pkts_per_second := uadd r.2.deauth_data.pkts_per_second r.1.toNat } }
  else some s

/-- Source line 169: `if (d.disassoc) d.pkts_per_second += send_disassoc(...)`. -/
def disassocLine (send : Transport) (t : Option Target) (s : Sys) : Option Sys :=
  if s.deauth_data.disassoc then
    match t with
    | none => none
    | some x =>
      let r := send_disassoc send x.getCh x.getFrom x.getTo s
      some { r.2 with
             deauth_data :=
               { r.2.deauth_data with
                 pkts_per_second := uadd r.2.deauth_data.pkts_per_second r.1.toNat } }
  else some s

/-- The send block of `updateDeauth` (source lines 165-172). `m4` is the value of
`millis()` in the condition, `m5` the one stored in `pkt_time`. -/
def sendStep (send : Transport) (m4 m5 : Nat) (s : Sys) : Option Sys :=
  let d := s.deauth_data
  if usub m4 d.pkt_time ≥ d.pkt_interval then
    let it := d.targets.iterate
    let s1 := { s with deauth_data := { d with targets := it.2 } }
    match deauthLine send it.1 s1 with
    | none => none
    | some s2 =>
      match disassocLine send it.1 s2 with
      | none => none
      | some s3 => some { s3 with deauth_data := { s3.deauth_data with pkt_time := m5 } }
  else some s

/-- Source line 174: `if (!d.targets.available()) d.targets.begin()`. -/
def wrapStep (s : Sys) : Sys :=
  if !s.deauth_data.targets.available then
    { s with deauth_data := { s.deauth_data with targets := s.deauth_data.targets.begin } }
  else s

/-- The termination test of `updateDeauth` (source lines 145-146). `m1` is the
value of `millis()` there. -/
def expired (m1 : Nat) (d : deauth_attack_data_t) : Bool :=
  (decide (d.timeout > 0) && decide (usub m1 d.start_time > d.timeout)) ||
  (decide (d.pkts > 0) && decide (d.pkts_sent ≥ d.pkts))

/-- The function `updateDeauth` (source lines 141-176). `m1 .. m5` are the values
of its five `millis()` calls, in source order. -/
def updateDeauth (send : Transport) (m1 m2 m3 m4 m5 : Nat) (s : Sys) : Option Sys :=
  if s.deauth_data.targets.size > 0 then
    if expired m1 s.deauth_data then some (stopDeauth s)
    else
      match sendStep send m4 m5 (statusStep m2 m3 s) with
      | none => none
      | some s1 => some (wrapStep s1)
  else some s

/-! ## The controller seen from its callers -/

/-- The operation `start` of the controller: `startDeauth` while the clock shows
`now`. -/
def start (targets : TargetList) (deauth disassoc : Bool)
    (rate timeout pkts : Nat) (silent : Bool) (now : Nat) (s : Sys) :
    Option (Sys × TargetList) :=
  startDeauth targets deauth disassoc rate timeout pkts silent now now s

/-- The operation `tick` of the controller: `updateDeauth` while the clock shows
`now`. -/
def tick (send : Transport) (now : Nat) (s : Sys) : Option Sys :=
  updateDeauth send now now now now now s

/-- The controller is running: its target list is not empty. -/
def Running (s : Sys) : Prop := s.deauth_data.targets.size > 0

/-- The controller is idle: its target list is empty. -/
def Idle (s : Sys) : Prop := s.deauth_data.targets.size = 0

instance (s : Sys) : Decidable (Running s) := by unfold Running; infer_instance

instance (s : Sys) : Decidable (Idle s) := by unfold Idle; infer_instance

/-- A sequence of `tick` calls, each with its clock value and the behaviour of
the transport during that call. The run ends early, with `none`, when a call
has no defined result. -/
def ticks : List (Nat × Transport) → Sys → Option Sys
  | [], s => some s
  | (now, send) :: rest, s =>
    match tick send now s with
    | none => none
    | some s1 => ticks rest s1

/-! ## The rate scheduler of the specification -/

/-- The specification's `framesPerVisit`: 1 if exactly one of the two modes is
enabled, 2 if both. -/
def spec_framesPerVisit (deauth disassoc : Bool) : Nat :=
  if deauth && disassoc then 2
  else if deauth || disassoc then 1
  else 0

/-- The specification's `interPacketIntervalMs(rate, framesPerVisit)`,
`floor(1000 / rate) * framesPerVisit`. -/
def spec_interPacketIntervalMs (rate framesPerVisit : Nat) : Nat :=
  (1000 / rate) * framesPerVisit

/-! ## Example data -/

/-- A target on channel 6. -/
def exampleTarget : Target :=
  { getFrom := [0xAA, 0xAA, 0xAA, 0xAA, 0xAA, 0xAA]
    getTo := [0xBB, 0xBB, 0xBB, 0xBB, 0xBB, 0xBB]
    getCh := 6 }

/-- A second target, on channel 11. -/
def exampleTarget2 : Target :=
  { getFrom := [0x10, 0x11, 0x12, 0x13, 0x14, 0x15]
    getTo := [0x20, 0x21, 0x22, 0x23, 0x24, 0x25]
    getCh := 11 }

/-- A transport that accepts every frame. -/
def acceptAll : Transport := fun _ _ _ => true

/-- A transport that refuses every frame. -/
def refuseAll : Transport := fun _ _ _ => false

/-- A running attack: one target, deauthentication only, 10 packets per second,
no timeout, no packet cap, started when the clock showed 1000. -/
def exampleRunning : Sys :=
  { Sys.init with
    deauth_data :=
      { targets := { list := [exampleTarget], pos := 0 }
        deauth := true, disassoc := false
        rate := 10, timeout := 0, pkts := 0
        start_time := 1000, output_time := 1000
        pkts_sent := 0, pkts_per_second := 0
        pkt_time := 0, pkt_interval := 100
        silent := false } }

/-- The attack of `exampleRunning` as `start` leaves it on the initial state,
with the summary in the output sink. -/
def exampleStarted : Sys :=
  { exampleRunning with
    sink := summaryHead 1 true false 10 0 0 ++ targetLine exampleTarget ++ summaryTail }

/-! ## Observing a run -/

/-- The state without the record of the output sink. -/
def dropSink (s : Sys) : Sys := { s with sink := [] }

/-- For each tick of a run, its clock value and the number of calls it made to
the transport. The record ends where a tick has no defined result. -/
def sendLog : List (Nat × Transport) → Sys → List (Nat × Nat)
  | [], _ => []
  | (now, send) :: rest, s =>
    match tick send now s with
    | none => []
    | some s1 => (now, s1.air.length - s.air.length) :: sendLog rest s1

/-- The number of frames transmitted by the ticks whose clock value `t` lies in
the span `a ≤ t < a + len`. -/
def framesIn (a len : Nat) (log : List (Nat × Nat)) : Nat :=
  ((log.filter (fun e => decide (a ≤ e.1 ∧ e.1 < a + len))).map (fun e => e.2)).sum

/-- The cursor between two calls: at rest on an idle controller, in front of an
unvisited target on a running one. -/
def CursorSettled (s : Sys) : Prop :=
  (Idle s → s.deauth_data.targets.pos = 0) ∧
    (Running s → s.deauth_data.targets.available = true)

/-- The fields that one call of `updateDeauth` never assigns. -/
structure SameConfig (s s1 : Sys) : Prop where
  deauth : s1.deauth_data.deauth = s.deauth_data.deauth
  disassoc : s1.deauth_data.disassoc = s.deauth_data.disassoc
  rate : s1.deauth_data.rate = s.deauth_data.rate
  timeout : s1.deauth_data.timeout = s.deauth_data.timeout
  pkts : s1.deauth_data.pkts = s.deauth_data.pkts
  start_time : s1.deauth_data.start_time = s.deauth_data.start_time
  pkt_interval : s1.deauth_data.pkt_interval = s.deauth_data.pkt_interval
  silent : s1.deauth_data.silent = s.deauth_data.silent

/-- The states that the program can be in between two calls: the state before
`main`, and every state that a defined call of `startDeauth`, a call of
`stopDeauth` or a defined tick makes of such a state. -/
inductive Reachable : Sys → Prop where
  | init : Reachable Sys.init
  | start (targets : TargetList) (deauth disassoc : Bool) (rate timeout pkts : Nat)
      (silent : Bool) (m1 m2 : Nat) (s s1 : Sys) (caller : TargetList) :
      Reachable s →
      startDeauth targets deauth disassoc rate timeout pkts silent m1 m2 s = some (s1, caller) →
      Reachable s1
  | stop (s : Sys) : Reachable s → Reachable (stopDeauth s)
  | tick (send : Transport) (now : Nat) (s s1 : Sys) :
      Reachable s → tick send now s = some s1 → Reachable s1

/-! ## One visit of a target, in closed form -/

/-- The calls that source lines 168 and 169 make to the transport for the target
`x` when the packet buffer holds `pkt`: the deauthentication frame if that mode
is enabled, then the disassociation frame if that mode is enabled, built on
the buffer as the first call left it. -/
def visitCalls (deauth disassoc : Bool) (x : Target) (pkt : List Nat) : List SendCall :=
  (if deauth then
      [⟨x.getCh, fill_addresses (pkt.set 0 0xc0) x.getFrom x.getTo, sizeof_deauth_pkt⟩]
    else []) ++
  (if disassoc then
      [⟨x.getCh,
        fill_addresses
          ((if deauth then fill_addresses (pkt.set 0 0xc0) x.getFrom x.getTo else pkt).set 0 0xa0)
          x.getFrom x.getTo,
        sizeof_deauth_pkt⟩]
    else [])

/-- The packet buffer after these calls. -/
def visitPkt (deauth disassoc : Bool) (x : Target) (pkt : List Nat) : List Nat :=
  if disassoc then
    fill_addresses
      ((if deauth then fill_addresses (pkt.set 0 0xc0) x.getFrom x.getTo else pkt).set 0 0xa0)
      x.getFrom x.getTo
  else if deauth then fill_addresses (pkt.set 0 0xc0) x.getFrom x.getTo
  else pkt

/-- The number of calls that the transport `send` accepts among `calls`. -/
def acceptedCalls (send : Transport) (calls : List SendCall) : Nat :=
  (calls.filter (fun c => send c.ch c.buf c.len)).length

/-- The state after the send block of `updateDeauth` (source lines 166-171) has
visited the target `x`, in closed form; `sendStep_visit` shows that this is
what the send block computes. -/
def visitState (send : Transport) (m5 : Nat) (x : Target) (s : Sys) : Sys :=
  { s with
    pkt := visitPkt s.deauth_data.deauth s.deauth_data.disassoc x s.pkt
    air := s.air ++ visitCalls s.deauth_data.deauth s.deauth_data.disassoc x s.pkt
    deauth_data :=
      { s.deauth_data with
        targets := ⟨s.deauth_data.targets.list, s.deauth_data.targets.pos + 1⟩
        pkts_per_second :=
          (s.deauth_data.pkts_per_second +
            acceptedCalls send
              (visitCalls s.deauth_data.deauth s.deauth_data.disassoc x s.pkt)) % 2 ^ 32
        pkt_time := m5 } }

/-- The number of calls that the transport accepted during a run of ticks: for
each tick, the calls it added to the record, judged by the transport of that
tick. -/
def accepted : List (Nat × Transport) → Sys → Nat
  | [], _ => 0
  | (now, send) :: rest, s =>
    match tick send now s with
    | none => 0
    | some s1 => acceptedCalls send (s1.air.drop s.air.length) + accepted rest s1

/-- The three output calls of the report of `stopDeauth` (source lines 135-137)
for a total of `n` packets. -/
def stopReport (n : Nat) : List Out :=
  [Out.debugF "Deauth attack stopped. Sent ", Out.debug (Printable.num n),
    Out.debuglnF " packets."]

/-- The calls that each tick of a run makes to the transport, tick by tick. The
record ends where a tick has no defined result. -/
def callLog : List (Nat × Transport) → Sys → List (List SendCall)
  | [], _ => []
  | (now, send) :: rest, s =>
    match tick send now s with
    | none => []
    | some s1 => s1.air.drop s.air.length :: callLog rest s1

/-- The calls of the ticks of a run whose send step fired, in the order of the
ticks. -/
def firedLog (tl : List (Nat × Transport)) (s : Sys) : List (List SendCall) :=
  (callLog tl s).filter (fun g => !g.isEmpty)

/-- The target that a call addresses, read off the call: the channel, bytes 10-15
of the frame (transmitter) and bytes 4-9 (receiver). -/
def callTarget (c : SendCall) : Target :=
  { getFrom := (c.buf.drop 10).take 6
    getTo := (c.buf.drop 4).take 6
    getCh := c.ch }

/-- The state as it is when the millisecond counter runs `c` ahead: the three
stored clock values are moved by `c`, modulo `2 ^ 32`. -/
def shiftClock (c : Nat) (s : Sys) : Sys :=
  { s with
    deauth_data :=
      { s.deauth_data with
        start_time := (s.deauth_data.start_time + c) % 2 ^ 32
        output_time := (s.deauth_data.output_time + c) % 2 ^ 32
        pkt_time := (s.deauth_data.pkt_time + c) % 2 ^ 32 } }

/-! ## Frame construction -/

theorem list_length_six (l : List Nat) (h : l.length = 6) :
    ∃ a b c d e f, l = [a, b, c, d, e, f] := by
  match l, h with
  | [a, b, c, d, e, f], _ => exact ⟨a, b, c, d, e, f, rfl⟩

/-- A buffer of 26 bytes, cut at the field boundaries of the frame. -/
theorem list_length_frame (l : List Nat) (h : l.length = 26) :
    ∃ h0 h1 h2 h3, ∃ ra ta bs : List Nat, ∃ t0 t1 t2 t3 : Nat,
      ra.length = 6 ∧ ta.length = 6 ∧ bs.length = 6 ∧
      l = [h0, h1, h2, h3] ++ ra ++ ta ++ bs ++ [t0, t1, t2, t3] := by
  match l, h with
  | [h0, h1, h2, h3, a0, a1, a2, a3, a4, a5, b0, b1, b2, b3, b4, b5, c0, c1, c2, c3, c4, c5,
      t0, t1, t2, t3], _ =>
    exact ⟨h0, h1, h2, h3, [a0, a1, a2, a3, a4, a5], [b0, b1, b2, b3, b4, b5],
      [c0, c1, c2, c3, c4, c5], t0, t1, t2, t3, rfl, rfl, rfl, rfl⟩

/-- What writing byte 0 and the three `memcpy` calls make of a 26-byte buffer. -/
theorem fill_addresses_frame (y h0 h1 h2 h3 : Nat) (ra ta bs : List Nat) (t0 t1 t2 t3 : Nat)
    (src dst : List Nat) (hra : ra.length = 6) (hta : ta.length = 6) (hbs : bs.length = 6)
    (hsrc : src.length = 6) (hdst : dst.length = 6) :
    fill_addresses (([h0, h1, h2, h3] ++ ra ++ ta ++ bs ++ [t0, t1, t2, t3]).set 0 y) src dst =
      [y, h1, h2, h3] ++ dst ++ src ++ src ++ [t0, t1, t2, t3] := by
  obtain ⟨a0, a1, a2, a3, a4, a5, rfl⟩ := list_length_six ra hra
  obtain ⟨b0, b1, b2, b3, b4, b5, rfl⟩ := list_length_six ta hta
  obtain ⟨c0, c1, c2, c3, c4, c5, rfl⟩ := list_length_six bs hbs
  obtain ⟨d0, d1, d2, d3, d4, d5, rfl⟩ := list_length_six src hsrc
  obtain ⟨e0, e1, e2, e3, e4, e5, rfl⟩ := list_length_six dst hdst
  rfl

/-- Every reachable content of the shared buffer has its constant bytes. -/
theorem PktReachable.shape {b : List Nat} (h : PktReachable b) :
    ∃ x, ∃ ra ta bs : List Nat, ra.length = 6 ∧ ta.length = 6 ∧ bs.length = 6 ∧
      b = [x, 0, 0, 0] ++ ra ++ ta ++ bs ++ [0, 0, 1, 0] := by
  induction h with
  | init =>
    exact ⟨0xC0, [0xFF, 0xFF, 0xFF, 0xFF, 0xFF, 0xFF], [0xCC, 0xCC, 0xCC, 0xCC, 0xCC, 0xCC],
      [0xCC, 0xCC, 0xCC, 0xCC, 0xCC, 0xCC], rfl, rfl, rfl, rfl⟩
  | deauth send ch src dst s _ hsrc hdst ih =>
    obtain ⟨x, ra, ta, bs, hra, hta, hbs, hb⟩ := ih
    refine ⟨0xc0, dst, src, src, hdst, hsrc, hsrc, ?_⟩
    simp only [send_deauth, hb]
    exact fill_addresses_frame _ _ _ _ _ _ _ _ _ _ _ _ _ _ hra hta hbs hsrc hdst
  | disassoc send ch src dst s _ hsrc hdst ih =>
    obtain ⟨x, ra, ta, bs, hra, hta, hbs, hb⟩ := ih
    refine ⟨0xa0, dst, src, src, hdst, hsrc, hsrc, ?_⟩
    simp only [send_disassoc, hb]
    exact fill_addresses_frame _ _ _ _ _ _ _ _ _ _ _ _ _ _ hra hta hbs hsrc hdst

/-- C1: for six-byte addresses and every reachable content of the shared buffer,
`send_deauth` makes exactly one call to the transport, on the given channel and
with length 26, and the frame of that call is `C0 00 00 00`, the receiver
address, the source address twice, `00 00 01 00`; the frame has 26 bytes and
the result of `send_deauth` is what the transport answers to that call. -/
theorem send_deauth_frame (send : Transport) (ch : Nat) (src dst : List Nat) (s : Sys)
    (hs : PktReachable s.pkt) (hsrc : src.length = 6) (hdst : dst.length = 6) :
    (send_deauth send ch src dst s).2.air =
        s.air ++ [⟨ch, [0xC0, 0x00, 0x00, 0x00] ++ dst ++ src ++ src ++ [0x00, 0x00, 0x01, 0x00], 26⟩] ∧
      ([0xC0, 0x00, 0x00, 0x00] ++ dst ++ src ++ src ++ [0x00, 0x00, 0x01, 0x00]).length = 26 ∧
      (send_deauth send ch src dst s).1 =
        send ch ([0xC0, 0x00, 0x00, 0x00] ++ dst ++ src ++ src ++ [0x00, 0x00, 0x01, 0x00]) 26 := by
  obtain ⟨x, ra, ta, bs, hra, hta, hbs, hb⟩ := hs.shape
  have hfill := fill_addresses_frame 0xc0 x 0 0 0 ra ta bs 0 0 1 0 src dst hra hta hbs hsrc hdst
  have hsize : sizeof_deauth_pkt = 26 := rfl
  refine ⟨?_, ?_, ?_⟩
  · simp only [send_deauth, hb, hfill, hsize]
  · simp [hsrc, hdst]
  · simp only [send_deauth, hb, hfill, hsize]

/-- C1, at the addresses of the spec's example, on the buffer that an earlier
`send_disassoc` call left behind. -/
theorem send_deauth_frame_witness :
    (send_deauth (fun _ _ _ => true) 1
        [0xAA, 0xAA, 0xAA, 0xAA, 0xAA, 0xAA] [0xBB, 0xBB, 0xBB, 0xBB, 0xBB, 0xBB]
        (send_disassoc (fun _ _ _ => false) 6
          [1, 2, 3, 4, 5, 6] [7, 8, 9, 10, 11, 12] Sys.init).2).2.air.getLast? =
      some ⟨1, [0xC0, 0x00, 0x00, 0x00, 0xBB, 0xBB, 0xBB, 0xBB, 0xBB, 0xBB,
                0xAA, 0xAA, 0xAA, 0xAA, 0xAA, 0xAA, 0xAA, 0xAA, 0xAA, 0xAA, 0xAA, 0xAA,
                0x00, 0x00, 0x01, 0x00], 26⟩ := by
  have h := (send_deauth_frame (fun _ _ _ => true) 1
    [0xAA, 0xAA, 0xAA, 0xAA, 0xAA, 0xAA] [0xBB, 0xBB, 0xBB, 0xBB, 0xBB, 0xBB]
    (send_disassoc (fun _ _ _ => false) 6 [1, 2, 3, 4, 5, 6] [7, 8, 9, 10, 11, 12] Sys.init).2
    (PktReachable.disassoc _ _ _ _ _ PktReachable.init rfl rfl) rfl rfl).1
  rw [h]
  simp

/-- C2: for six-byte addresses and every 26-byte content of the shared buffer, the
frame of `send_disassoc` is the frame of `send_deauth` with byte 0 replaced:
byte 0 is `0xA0` in the one and `0xC0` in the other, every byte from 1 on is
the same in both, and in both frames bytes 10-15 equal bytes 16-21 (and equal
the source address). -/
theorem send_disassoc_frame_differs_in_byte_0 (send send2 : Transport) (ch : Nat)
    (src dst : List Nat) (s : Sys)
    (hs : s.pkt.length = 26) (hsrc : src.length = 6) (hdst : dst.length = 6) :
    ∃ fa fd : SendCall,
      (send_deauth send ch src dst s).2.air = s.air ++ [fa] ∧
      (send_disassoc send2 ch src dst s).2.air = s.air ++ [fd] ∧
      (send_disassoc send2 ch src dst (send_deauth send ch src dst s).2).2.air =
        s.air ++ [fa, fd] ∧
      fa.buf.length = 26 ∧ fd.buf.length = 26 ∧
      fa.ch = fd.ch ∧ fa.len = fd.len ∧
      fa.buf.get? 0 = some 0xC0 ∧ fd.buf.get? 0 = some 0xA0 ∧
      (∀ i, 1 ≤ i → fd.buf.get? i = fa.buf.get? i) ∧
      (fa.buf.drop 10).take 6 = src ∧ (fa.buf.drop 16).take 6 = src ∧
      (fd.buf.drop 10).take 6 = src ∧ (fd.buf.drop 16).take 6 = src := by
  obtain ⟨h0, h1, h2, h3, ra, ta, bs, t0, t1, t2, t3, hra, hta, hbs, hb⟩ :=
    list_length_frame s.pkt hs
  have hfa := fill_addresses_frame 0xc0 h0 h1 h2 h3 ra ta bs t0 t1 t2 t3 src dst hra hta hbs hsrc hdst
  have hfd := fill_addresses_frame 0xa0 h0 h1 h2 h3 ra ta bs t0 t1 t2 t3 src dst hra hta hbs hsrc hdst
  obtain ⟨d0, d1, d2, d3, d4, d5, rfl⟩ := list_length_six src hsrc
  obtain ⟨e0, e1, e2, e3, e4, e5, rfl⟩ := list_length_six dst hdst
  refine ⟨⟨ch, [0xc0, h1, h2, h3, e0, e1, e2, e3, e4, e5, d0, d1, d2, d3, d4, d5,
      d0, d1, d2, d3, d4, d5, t0, t1, t2, t3], sizeof_deauth_pkt⟩,
    ⟨ch, [0xa0, h1, h2, h3, e0, e1, e2, e3, e4, e5, d0, d1, d2, d3, d4, d5,
      d0, d1, d2, d3, d4, d5, t0, t1, t2, t3], sizeof_deauth_pkt⟩, ?_, ?_, ?_, ?_⟩
  · simp only [send_deauth, hb, hfa]
    rfl
  · simp only [send_disassoc, hb, hfd]
    rfl
  · simp only [send_deauth, send_disassoc, hb, hfa]
    simp [fill_addresses, memcpy]
  · refine ⟨rfl, rfl, rfl, rfl, rfl, rfl, ?_, rfl, rfl, rfl, rfl⟩
    intro i hi
    obtain ⟨j, rfl⟩ : ∃ j, i = j + 1 := ⟨i - 1, by omega⟩
    simp

/-- C2, at the addresses of the spec's example and the initial buffer. -/
theorem send_disassoc_frame_differs_in_byte_0_witness :
    ∃ fa fd : SendCall,
      (send_deauth (fun _ _ _ => true) 1 [0xAA, 0xAA, 0xAA, 0xAA, 0xAA, 0xAA]
        [0xBB, 0xBB, 0xBB, 0xBB, 0xBB, 0xBB] Sys.init).2.air = Sys.init.air ++ [fa] ∧
      (send_disassoc (fun _ _ _ => true) 1 [0xAA, 0xAA, 0xAA, 0xAA, 0xAA, 0xAA]
        [0xBB, 0xBB, 0xBB, 0xBB, 0xBB, 0xBB] Sys.init).2.air = Sys.init.air ++ [fd] ∧
      fa.buf.get? 0 = some 0xC0 ∧ fd.buf.get? 0 = some 0xA0 ∧
      (∀ i, 1 ≤ i → fd.buf.get? i = fa.buf.get? i) := by
  obtain ⟨fa, fd, h1, h2, _, _, _, _, _, h3, h4, h5, _⟩ :=
    send_disassoc_frame_differs_in_byte_0 (fun _ _ _ => true) (fun _ _ _ => true) 1
      [0xAA, 0xAA, 0xAA, 0xAA, 0xAA, 0xAA] [0xBB, 0xBB, 0xBB, 0xBB, 0xBB, 0xBB] Sys.init
      rfl rfl rfl
  exact ⟨fa, fd, h1, h2, h3, h4, h5⟩


/-! ## Start -/

/-- The loop over the targets leaves its exit after `size - pos` passes: it has
printed one line per remaining target and the cursor is exhausted. -/
theorem printTargets_fuel (fuel : Nat) (t : TargetList) (o : List Out)
    (h : t.list.length - t.pos ≤ fuel) :
    printTargets fuel t o =
      some (⟨t.list, max t.pos t.list.length⟩,
        o ++ ((t.list.drop t.pos).map targetLine).flatten) := by
  induction fuel generalizing t o with
  | zero =>
    have hle : t.list.length ≤ t.pos := by omega
    simp [printTargets, List.drop_eq_nil_of_le hle, Nat.max_eq_left hle]
  | succ n ih =>
    by_cases hlt : t.pos < t.list.length
    · have hget : t.list.get? t.pos = some (t.list.get ⟨t.pos, hlt⟩) := List.get?_eq_get hlt
      have hdrop : t.list.drop t.pos = t.list.get ⟨t.pos, hlt⟩ :: t.list.drop (t.pos + 1) :=
        List.drop_eq_getElem_cons hlt
      have hrec := ih ⟨t.list, t.pos + 1⟩ (o ++ targetLine (t.list.get ⟨t.pos, hlt⟩))
        (by simp only; omega)
      simp only [printTargets, TargetList.available, hlt, decide_True, if_true,
        TargetList.iterate, hget]
      have h1 : max (t.pos + 1) t.list.length = max t.pos t.list.length := by omega
      rw [hrec]
      simp only [hdrop, List.map_cons, List.flatten_cons, List.append_assoc, h1]
    · have hle : t.list.length ≤ t.pos := by omega
      simp [printTargets, TargetList.available, hlt, List.drop_eq_nil_of_le hle,
        Nat.max_eq_left hle]

/-- No product on source line 126 leaves the range of `unsigned long`. -/
theorem pktInterval_eq (rate : Nat) (deauth disassoc : Bool) :
    pktInterval rate deauth disassoc = (1000 / rate) * (deauth.toNat + disassoc.toNat) := by
  unfold pktInterval
  apply Nat.mod_eq_of_lt
  have h1 : 1000 / rate ≤ 1000 := Nat.div_le_self _ _
  have h2 : deauth.toNat + disassoc.toNat ≤ 2 := by
    cases deauth <;> cases disassoc <;> simp
  calc (1000 / rate) * (deauth.toNat + disassoc.toNat) ≤ 1000 * 2 := Nat.mul_le_mul h1 h2
    _ < 2 ^ ULONG_BITS := by decide

/-- The list that `stopDeauth` leaves behind is empty. -/
theorem stopDeauth_list (s : Sys) : (stopDeauth s).deauth_data.targets.list = [] := by
  unfold stopDeauth
  by_cases h : s.deauth_data.targets.size > 0
  · simp [h, TargetList.clear]
  · have : s.deauth_data.targets.list.length = 0 := by
      simpa [TargetList.size] using h
    simpa [h] using List.length_eq_zero.mp this

/-- What `startDeauth` returns once its two checks have passed. -/
theorem startDeauth_accepts (targets : TargetList) (deauth disassoc : Bool)
    (rate timeout pkts : Nat) (silent : Bool) (m1 m2 : Nat) (s : Sys)
    (ht : targets.size > 0) (hm : deauth = true ∨ disassoc = true) (hr : rate > 0) :
    startDeauth targets deauth disassoc rate timeout pkts silent m1 m2 s =
      some
        ({ stopDeauth s with
           deauth_data :=
             { targets := ⟨targets.list, (stopDeauth s).deauth_data.targets.pos⟩
               deauth := deauth
               disassoc := disassoc
               rate := rate
               timeout := timeout
               pkts := pkts
               start_time := m1
               output_time := m2
               pkts_sent := 0
               pkts_per_second := 0
               pkt_time := 0
               pkt_interval := pktInterval rate deauth disassoc
               silent := silent }
           sink := (stopDeauth s).sink ++
             summaryHead targets.size deauth disassoc rate timeout pkts ++
             (targets.list.map targetLine).flatten ++ summaryTail },
         ⟨[], 0⟩) := by
  have h0 : ¬ targets.size = 0 := by omega
  have hmode : (!deauth && !disassoc) = false := by
    rcases hm with h | h <;> simp [h]
  have hr0 : ¬ rate = 0 := by omega
  have hp := printTargets_fuel (targets.begin.size - targets.begin.pos) targets.begin
    ((stopDeauth s).sink ++ summaryHead targets.size deauth disassoc rate timeout pkts)
    (by simp [TargetList.size])
  unfold startDeauth
  simp only [h0, if_false, hmode, Bool.false_eq_true, hp, hr0]
  simp [TargetList.moveFrom, TargetList.begin, stopDeauth_list, List.append_assoc]


/-- The first error check of `startDeauth` (source lines 59-62). -/
theorem startDeauth_no_targets (targets : TargetList) (deauth disassoc : Bool)
    (rate timeout pkts : Nat) (silent : Bool) (m1 m2 : Nat) (s : Sys)
    (h : targets.size = 0) :
    startDeauth targets deauth disassoc rate timeout pkts silent m1 m2 s =
      some ({ s with sink := s.sink ++ [Out.debuglnF "ERROR: No targets specified"] },
        targets) := by
  simp [startDeauth, h]

/-- The second error check of `startDeauth` (source lines 63-66). -/
theorem startDeauth_no_mode (targets : TargetList)
    (rate timeout pkts : Nat) (silent : Bool) (m1 m2 : Nat) (s : Sys)
    (h : targets.size ≠ 0) :
    startDeauth targets false false rate timeout pkts silent m1 m2 s =
      some ({ s with sink := s.sink ++ [Out.debuglnF "ERROR: Invalid mode"] }, targets) := by
  simp [startDeauth, h]

/-- A refused start changes the output sink and nothing else. -/
theorem startDeauth_refused (targets : TargetList) (deauth disassoc : Bool)
    (rate timeout pkts : Nat) (silent : Bool) (m1 m2 : Nat) (s : Sys)
    (h : targets.size = 0 ∨ (deauth = false ∧ disassoc = false)) :
    ∃ o, startDeauth targets deauth disassoc rate timeout pkts silent m1 m2 s =
      some ({ s with sink := o }, targets) := by
  by_cases h0 : targets.size = 0
  · exact ⟨_, startDeauth_no_targets targets deauth disassoc rate timeout pkts silent m1 m2 s h0⟩
  · rcases h with h | ⟨hd, ha⟩
    · exact absurd h h0
    · subst hd
      subst ha
      exact ⟨_, startDeauth_no_mode targets rate timeout pkts silent m1 m2 s h0⟩

/-- C3: when the supplied list is empty or both modes are disabled, `startDeauth`
returns with the attack record, the packet buffer, the record of transmitted
frames and the caller's list as they were; the one thing it does is to write
one error line to the output sink, `ERROR: No targets specified` for an empty
list and `ERROR: Invalid mode` otherwise. -/
theorem startDeauth_rejects (targets : TargetList) (deauth disassoc : Bool)
    (rate timeout pkts : Nat) (silent : Bool) (m1 m2 : Nat) (s : Sys)
    (h : targets.size = 0 ∨ (deauth = false ∧ disassoc = false)) :
    startDeauth targets deauth disassoc rate timeout pkts silent m1 m2 s =
      some
        ({ s with
           sink := s.sink ++
             [Out.debuglnF
               (if targets.size = 0 then "ERROR: No targets specified"
                else "ERROR: Invalid mode")] },
         targets) := by
  by_cases h0 : targets.size = 0
  · rw [startDeauth_no_targets targets deauth disassoc rate timeout pkts silent m1 m2 s h0]
    simp only [h0, if_true]
  · rcases h with h | ⟨hd, ha⟩
    · exact absurd h h0
    · subst hd
      subst ha
      rw [startDeauth_no_mode targets rate timeout pkts silent m1 m2 s h0]
      simp only [h0, if_false]

/-- C3, on a running attack: once with an empty list, once with a target and
both modes disabled. -/
theorem startDeauth_rejects_witness :
    startDeauth ⟨[], 0⟩ true true 10 0 0 false 2000 2000 exampleRunning =
        some ({ exampleRunning with
                sink := exampleRunning.sink ++ [Out.debuglnF "ERROR: No targets specified"] },
          ⟨[], 0⟩) ∧
      startDeauth ⟨[exampleTarget2], 0⟩ false false 10 0 0 false 2000 2000 exampleRunning =
        some ({ exampleRunning with
                sink := exampleRunning.sink ++ [Out.debuglnF "ERROR: Invalid mode"] },
          ⟨[exampleTarget2], 0⟩) :=
  ⟨startDeauth_rejects ⟨[], 0⟩ true true 10 0 0 false 2000 2000 exampleRunning (Or.inl rfl),
    startDeauth_rejects ⟨[exampleTarget2], 0⟩ false false 10 0 0 false 2000 2000 exampleRunning
      (Or.inr ⟨rfl, rfl⟩)⟩

/-- C5: with a non-empty list, at least one mode and `rate > 0`, `start` returns
from every prior state with the controller running on exactly the supplied
targets in their order, the caller's list empty, the configuration fields equal
to the arguments, both counters zero and both timestamps equal to the clock
value of the call. -/
theorem start_installs (targets : TargetList) (deauth disassoc : Bool)
    (rate timeout pkts : Nat) (silent : Bool) (now : Nat) (s : Sys)
    (ht : targets.size > 0) (hm : deauth = true ∨ disassoc = true) (hr : rate > 0) :
    ∃ s1 caller,
      start targets deauth disassoc rate timeout pkts silent now s = some (s1, caller) ∧
      Running s1 ∧
      s1.deauth_data.targets.list = targets.list ∧
      caller.list = [] ∧ caller.size = 0 ∧
      s1.deauth_data.deauth = deauth ∧ s1.deauth_data.disassoc = disassoc ∧
      s1.deauth_data.rate = rate ∧ s1.deauth_data.timeout = timeout ∧
      s1.deauth_data.pkts = pkts ∧ s1.deauth_data.silent = silent ∧
      s1.deauth_data.pkts_sent = 0 ∧ s1.deauth_data.pkts_per_second = 0 ∧
      s1.deauth_data.start_time = now ∧ s1.deauth_data.output_time = now := by
  refine ⟨_, _, startDeauth_accepts targets deauth disassoc rate timeout pkts silent now now s
    ht hm hr, ?_⟩
  refine ⟨?_, rfl, rfl, rfl, rfl, rfl, rfl, rfl, rfl, rfl, rfl, rfl, rfl, rfl⟩
  simpa [Running, TargetList.size] using ht

/-- C5, on a running attack that has counted packets: a new start with two
targets replaces the old list. -/
theorem start_installs_witness :
    ∃ s1 caller,
      start ⟨[exampleTarget2, exampleTarget], 1⟩ true true 20 5000 10 true 7000
        { exampleRunning with
          deauth_data := { exampleRunning.deauth_data with pkts_sent := 40, pkts_per_second := 3 } } =
        some (s1, caller) ∧
      Running s1 ∧
      s1.deauth_data.targets.list = [exampleTarget2, exampleTarget] ∧
      caller.list = [] ∧ caller.size = 0 ∧
      s1.deauth_data.deauth = true ∧ s1.deauth_data.disassoc = true ∧
      s1.deauth_data.rate = 20 ∧ s1.deauth_data.timeout = 5000 ∧
      s1.deauth_data.pkts = 10 ∧ s1.deauth_data.silent = true ∧
      s1.deauth_data.pkts_sent = 0 ∧ s1.deauth_data.pkts_per_second = 0 ∧
      s1.deauth_data.start_time = 7000 ∧ s1.deauth_data.output_time = 7000 :=
  start_installs ⟨[exampleTarget2, exampleTarget], 1⟩ true true 20 5000 10 true 7000
    { exampleRunning with
      deauth_data := { exampleRunning.deauth_data with pkts_sent := 40, pkts_per_second := 3 } }
    (by decide) (Or.inl rfl) (by decide)

/-- C6: the interval that a successful `start` installs is
`floor(1000 / rate) * framesPerVisit`, with `framesPerVisit` as the specification
defines it; at every rate the interval for both modes is twice the interval
for one mode. -/
theorem start_interval (targets : TargetList) (deauth disassoc : Bool)
    (rate timeout pkts : Nat) (silent : Bool) (now : Nat) (s : Sys)
    (ht : targets.size > 0) (hm : deauth = true ∨ disassoc = true) (hr : rate > 0) :
    (∃ s1 caller,
      start targets deauth disassoc rate timeout pkts silent now s = some (s1, caller) ∧
      s1.deauth_data.pkt_interval = pktInterval rate deauth disassoc) ∧
    pktInterval rate deauth disassoc =
      spec_interPacketIntervalMs rate (spec_framesPerVisit deauth disassoc) ∧
    pktInterval rate true true = 2 * pktInterval rate true false ∧
    pktInterval rate true true = 2 * pktInterval rate false true := by
  refine ⟨⟨_, _, startDeauth_accepts targets deauth disassoc rate timeout pkts silent now now s
    ht hm hr, rfl⟩, ?_, ?_, ?_⟩
  · rw [pktInterval_eq]
    cases deauth <;> cases disassoc <;>
      simp [spec_interPacketIntervalMs, spec_framesPerVisit] at hm ⊢
  · simp only [pktInterval_eq]
    simp [Nat.mul_comm]
  · simp only [pktInterval_eq]
    simp [Nat.mul_comm]

/-- C6, at 10 packets per second: 100 ms with one mode, 200 ms with both. -/
theorem start_interval_witness :
    ((start ⟨[exampleTarget], 0⟩ true false 10 0 0 false 0 Sys.init).map
        (fun r => r.1.deauth_data.pkt_interval) = some 100 ∧
      (start ⟨[exampleTarget], 0⟩ true true 10 0 0 false 0 Sys.init).map
        (fun r => r.1.deauth_data.pkt_interval) = some 200) ∧
    pktInterval 10 true true = 2 * pktInterval 10 true false := by
  have h1 := start_interval ⟨[exampleTarget], 0⟩ true false 10 0 0 false 0 Sys.init
    (by decide) (Or.inl rfl) (by decide)
  have h2 := start_interval ⟨[exampleTarget], 0⟩ true true 10 0 0 false 0 Sys.init
    (by decide) (Or.inl rfl) (by decide)
  obtain ⟨⟨a1, c1, e1, i1⟩, _, d1, _⟩ := h1
  obtain ⟨⟨a2, c2, e2, i2⟩, _, _, _⟩ := h2
  refine ⟨⟨?_, ?_⟩, d1⟩
  · rw [e1]
    simpa using i1
  · rw [e2]
    simpa using i2

/-- C7: at fixed modes the interval of source line 126 does not grow with the
rate, and neither does the specification's `interPacketIntervalMs` at fixed
`framesPerVisit`. -/
theorem pktInterval_antitone (deauth disassoc : Bool) (r1 r2 : Nat)
    (h1 : 0 < r1) (h12 : r1 ≤ r2) :
    pktInterval r2 deauth disassoc ≤ pktInterval r1 deauth disassoc ∧
      ∀ framesPerVisit,
        spec_interPacketIntervalMs r2 framesPerVisit ≤
          spec_interPacketIntervalMs r1 framesPerVisit := by
  have hq : 1000 / r2 ≤ 1000 / r1 := Nat.div_le_div_left h12 h1
  refine ⟨?_, fun f => Nat.mul_le_mul_right f hq⟩
  simp only [pktInterval_eq]
  exact Nat.mul_le_mul_right _ hq

/-- C7, for the rates 10 and 30 with both modes: 66 ms against 200 ms. -/
theorem pktInterval_antitone_witness :
    pktInterval 30 true true ≤ pktInterval 10 true true ∧
      pktInterval 30 true true = 66 ∧ pktInterval 10 true true = 200 :=
  ⟨(pktInterval_antitone true true 10 30 (by decide) (by decide)).1, by decide, by decide⟩

/-! ## Tick: the steps of `updateDeauth` -/

theorem SameConfig.refl (s : Sys) : SameConfig s s :=
  ⟨rfl, rfl, rfl, rfl, rfl, rfl, rfl, rfl⟩

theorem SameConfig.trans {a b c : Sys} (h1 : SameConfig a b) (h2 : SameConfig b c) :
    SameConfig a c :=
  ⟨h2.deauth.trans h1.deauth, h2.disassoc.trans h1.disassoc, h2.rate.trans h1.rate,
    h2.timeout.trans h1.timeout, h2.pkts.trans h1.pkts, h2.start_time.trans h1.start_time,
    h2.pkt_interval.trans h1.pkt_interval, h2.silent.trans h1.silent⟩

theorem stopDeauth_sameConfig (s : Sys) : SameConfig s (stopDeauth s) := by
  unfold stopDeauth
  dsimp only
  split <;> exact ⟨rfl, rfl, rfl, rfl, rfl, rfl, rfl, rfl⟩

/-- On a running attack `stopDeauth` empties the list and resets its cursor; it
transmits nothing and leaves the packet buffer alone. -/
theorem stopDeauth_running (s : Sys) (h : Running s) :
    (stopDeauth s).deauth_data.targets = ⟨[], 0⟩ ∧
      (stopDeauth s).air = s.air ∧ (stopDeauth s).pkt = s.pkt ∧
      (stopDeauth s).deauth_data.pkts_sent =
        uadd s.deauth_data.pkts_sent s.deauth_data.pkts_per_second := by
  unfold Running at h
  simp [stopDeauth, h, TargetList.clear]

/-- The two outcomes of the status block. -/
theorem statusStep_cases (m2 m3 : Nat) (s : Sys) :
    (statusStep m2 m3 s = s ∧
      (s.deauth_data.silent = true ∨ usub m2 s.deauth_data.output_time < 1000)) ∨
    (statusStep m2 m3 s =
        { s with
          deauth_data :=
            { s.deauth_data with
              pkts_sent := uadd s.deauth_data.pkts_sent s.deauth_data.pkts_per_second
              output_time := m3
              pkts_per_second := 0 }
          sink := s.sink ++
            [Out.debugF "[Deauth attack: ",
             Out.debug (Printable.num s.deauth_data.pkts_per_second),
             Out.debugF " pkts/s, ",
             Out.debug (Printable.num
               (uadd s.deauth_data.pkts_sent s.deauth_data.pkts_per_second)),
             Out.debuglnF " total]"] } ∧
      s.deauth_data.silent = false ∧ 1000 ≤ usub m2 s.deauth_data.output_time) := by
  unfold statusStep
  by_cases hs : s.deauth_data.silent = true
  · left
    simp [hs]
  · have hs0 : s.deauth_data.silent = false := by simpa using hs
    by_cases ht : 1000 ≤ usub m2 s.deauth_data.output_time
    · right
      simp [hs0, ht]
    · left
      simp [hs0, ht]
      omega

theorem statusStep_sameConfig (m2 m3 : Nat) (s : Sys) : SameConfig s (statusStep m2 m3 s) := by
  rcases statusStep_cases m2 m3 s with ⟨h, _⟩ | ⟨h, _⟩ <;> rw [h] <;>
    exact ⟨rfl, rfl, rfl, rfl, rfl, rfl, rfl, rfl⟩

/-- The status block touches neither the targets nor the send time, and it
transmits nothing. -/
theorem statusStep_frame (m2 m3 : Nat) (s : Sys) :
    (statusStep m2 m3 s).deauth_data.targets = s.deauth_data.targets ∧
      (statusStep m2 m3 s).deauth_data.pkt_time = s.deauth_data.pkt_time ∧
      (statusStep m2 m3 s).air = s.air ∧ (statusStep m2 m3 s).pkt = s.pkt := by
  rcases statusStep_cases m2 m3 s with ⟨h, _⟩ | ⟨h, _⟩ <;> rw [h] <;>
    exact ⟨rfl, rfl, rfl, rfl⟩

/-- The two outcomes of the wrap-around line. -/
theorem wrapStep_cases (s : Sys) :
    (wrapStep s = s ∧ s.deauth_data.targets.available = true) ∨
    (wrapStep s =
        { s with deauth_data := { s.deauth_data with targets := s.deauth_data.targets.begin } } ∧
      s.deauth_data.targets.available = false) := by
  unfold wrapStep
  by_cases hav : s.deauth_data.targets.available = true
  · left
    simp [hav]
  · right
    have h0 : s.deauth_data.targets.available = false := by simpa using hav
    simp [h0]

/-- The wrap-around line touches the cursor only. -/
theorem wrapStep_frame (s : Sys) :
    SameConfig s (wrapStep s) ∧
      (wrapStep s).deauth_data.targets.list = s.deauth_data.targets.list ∧
      (wrapStep s).deauth_data.pkt_time = s.deauth_data.pkt_time ∧
      (wrapStep s).deauth_data.pkts_sent = s.deauth_data.pkts_sent ∧
      (wrapStep s).deauth_data.pkts_per_second = s.deauth_data.pkts_per_second ∧
      (wrapStep s).deauth_data.output_time = s.deauth_data.output_time ∧
      (wrapStep s).air = s.air ∧ (wrapStep s).pkt = s.pkt ∧ (wrapStep s).sink = s.sink := by
  rcases wrapStep_cases s with ⟨h, _⟩ | ⟨h, _⟩ <;> rw [h] <;> exact ⟨⟨rfl, rfl, rfl, rfl, rfl, rfl, rfl, rfl⟩, rfl, rfl, rfl, rfl, rfl, rfl, rfl, rfl⟩

/-- After the wrap-around line a non-empty list has an unvisited target. -/
theorem wrapStep_available (s : Sys) (h : s.deauth_data.targets.list ≠ []) :
    (wrapStep s).deauth_data.targets.available = true := by
  rcases wrapStep_cases s with ⟨h1, hav⟩ | ⟨h1, _⟩ <;> rw [h1]
  · exact hav
  · have hpos : 0 < s.deauth_data.targets.list.length := List.length_pos.mpr h
    simp [TargetList.available, TargetList.begin, hpos]

/-- What line 168 does when it has a target at hand. -/
theorem deauthLine_some (send : Transport) (x : Target) (s : Sys) :
    ∃ s1, deauthLine send (some x) s = some s1 ∧ SameConfig s s1 ∧
      s1.deauth_data.targets = s.deauth_data.targets ∧
      s1.deauth_data.pkt_time = s.deauth_data.pkt_time ∧
      s1.deauth_data.pkts_sent = s.deauth_data.pkts_sent ∧
      s1.deauth_data.output_time = s.deauth_data.output_time ∧
      s1.sink = s.sink ∧
      s1.air.length = s.air.length + s.deauth_data.deauth.toNat := by
  unfold deauthLine
  by_cases h : s.deauth_data.deauth = true
  · simp only [h, if_true]
    exact ⟨_, rfl, ⟨rfl, rfl, rfl, rfl, rfl, rfl, rfl, rfl⟩, rfl, rfl, rfl, rfl, rfl,
      by simp [send_deauth]⟩
  · have h0 : s.deauth_data.deauth = false := by simpa using h
    simp only [h0, Bool.false_eq_true, if_false]
    exact ⟨_, rfl, SameConfig.refl s, rfl, rfl, rfl, rfl, rfl, by simp⟩

/-- What line 169 does when it has a target at hand. -/
theorem disassocLine_some (send : Transport) (x : Target) (s : Sys) :
    ∃ s1, disassocLine send (some x) s = some s1 ∧ SameConfig s s1 ∧
      s1.deauth_data.targets = s.deauth_data.targets ∧
      s1.deauth_data.pkt_time = s.deauth_data.pkt_time ∧
      s1.deauth_data.pkts_sent = s.deauth_data.pkts_sent ∧
      s1.deauth_data.output_time = s.deauth_data.output_time ∧
      s1.sink = s.sink ∧
      s1.air.length = s.air.length + s.deauth_data.disassoc.toNat := by
  unfold disassocLine
  by_cases h : s.deauth_data.disassoc = true
  · simp only [h, if_true]
    exact ⟨_, rfl, ⟨rfl, rfl, rfl, rfl, rfl, rfl, rfl, rfl⟩, rfl, rfl, rfl, rfl, rfl,
      by simp [send_disassoc]⟩
  · have h0 : s.deauth_data.disassoc = false := by simpa using h
    simp only [h0, Bool.false_eq_true, if_false]
    exact ⟨_, rfl, SameConfig.refl s, rfl, rfl, rfl, rfl, rfl, by simp⟩

/-- Without a target at hand the two lines are defined only when their mode is
off, and then they do nothing. -/
theorem deauthLine_none (send : Transport) (s s1 : Sys)
    (h : deauthLine send none s = some s1) : s1 = s ∧ s.deauth_data.deauth = false := by
  unfold deauthLine at h
  by_cases hd : s.deauth_data.deauth = true
  · simp [hd] at h
  · have h0 : s.deauth_data.deauth = false := by simpa using hd
    simp [h0] at h
    exact ⟨h.symm, h0⟩

theorem disassocLine_none (send : Transport) (s s1 : Sys)
    (h : disassocLine send none s = some s1) : s1 = s ∧ s.deauth_data.disassoc = false := by
  unfold disassocLine at h
  by_cases hd : s.deauth_data.disassoc = true
  · simp [hd] at h
  · have h0 : s.deauth_data.disassoc = false := by simpa using hd
    simp [h0] at h
    exact ⟨h.symm, h0⟩


/-- On a cursor with an unvisited target `iterate` returns that target and steps
over it. -/
theorem iterate_available (t : TargetList) (h : t.available = true) :
    ∃ x, t.list.get? t.pos = some x ∧ t.iterate = (some x, ⟨t.list, t.pos + 1⟩) := by
  have hlt : t.pos < t.list.length := by simpa [TargetList.available] using h
  refine ⟨t.list.get ⟨t.pos, hlt⟩, List.get?_eq_get hlt, ?_⟩
  simp [TargetList.iterate, List.getElem?_eq_getElem hlt]

/-- The cursor after `iterate` walks the same list. -/
theorem iterate_list (t : TargetList) : t.iterate.2.list = t.list := by
  unfold TargetList.iterate
  split <;> rfl

/-- The send block does nothing before the interval has elapsed. -/
theorem sendStep_wait (send : Transport) (m4 m5 : Nat) (s : Sys)
    (h : usub m4 s.deauth_data.pkt_time < s.deauth_data.pkt_interval) :
    sendStep send m4 m5 s = some s := by
  have h1 : ¬ s.deauth_data.pkt_interval ≤ usub m4 s.deauth_data.pkt_time := by omega
  simp [sendStep, h1]

/-- The send block once the interval has elapsed: the cursor has stepped, the
send time is the clock value, and one call went to the transport for each
enabled mode. -/
theorem sendStep_fire (send : Transport) (m4 m5 : Nat) (s s1 : Sys)
    (hf : s.deauth_data.pkt_interval ≤ usub m4 s.deauth_data.pkt_time)
    (h : sendStep send m4 m5 s = some s1) :
    SameConfig s s1 ∧
      s1.deauth_data.targets = s.deauth_data.targets.iterate.2 ∧
      s1.deauth_data.pkt_time = m5 ∧
      s1.deauth_data.pkts_sent = s.deauth_data.pkts_sent ∧
      s1.deauth_data.output_time = s.deauth_data.output_time ∧
      s1.sink = s.sink ∧
      s1.air.length =
        s.air.length + (s.deauth_data.deauth.toNat + s.deauth_data.disassoc.toNat) := by
  unfold sendStep at h
  simp only [ge_iff_le, hf, if_true] at h
  cases hit : s.deauth_data.targets.iterate.1 with
  | none =>
    rw [hit] at h
    cases hd : deauthLine send none
        { s with deauth_data := { s.deauth_data with targets := s.deauth_data.targets.iterate.2 } } with
    | none => simp [hd] at h
    | some s2 =>
      obtain ⟨e2, hd0⟩ := deauthLine_none send _ _ hd
      rw [hd] at h
      simp only at h
      cases ha : disassocLine send none s2 with
      | none => simp [ha] at h
      | some s3 =>
        obtain ⟨e3, ha0⟩ := disassocLine_none send _ _ ha
        rw [ha] at h
        simp only [Option.some.injEq] at h
        subst h
        subst e3
        subst e2
        simp only at hd0 ha0
        refine ⟨⟨rfl, rfl, rfl, rfl, rfl, rfl, rfl, rfl⟩, rfl, rfl, rfl, rfl, rfl, ?_⟩
        simp [hd0, ha0]
  | some x =>
    rw [hit] at h
    obtain ⟨s2, e2, c2, t2, p2, n2, o2, k2, a2⟩ := deauthLine_some send x
      { s with deauth_data := { s.deauth_data with targets := s.deauth_data.targets.iterate.2 } }
    obtain ⟨s3, e3, c3, t3, p3, n3, o3, k3, a3⟩ := disassocLine_some send x s2
    rw [e2] at h
    simp only [e3, Option.some.injEq] at h
    subst h
    refine ⟨?_, ?_, rfl, ?_, ?_, ?_, ?_⟩
    · have c23 := c2.trans c3
      exact ⟨c23.deauth, c23.disassoc, c23.rate, c23.timeout, c23.pkts, c23.start_time,
        c23.pkt_interval, c23.silent⟩
    · simpa [t3] using t2
    · simpa [n3] using n2
    · simpa [o3] using o2
    · simpa [k3] using k2
    · simp only [a3, a2, c2.disassoc]
      omega

/-- The send block has a defined result whenever the cursor has an unvisited
target. -/
theorem sendStep_defined (send : Transport) (m4 m5 : Nat) (s : Sys)
    (hav : s.deauth_data.targets.available = true) :
    ∃ s1, sendStep send m4 m5 s = some s1 := by
  by_cases hf : s.deauth_data.pkt_interval ≤ usub m4 s.deauth_data.pkt_time
  · obtain ⟨x, _, hit⟩ := iterate_available _ hav
    obtain ⟨s2, e2, _⟩ := deauthLine_some send x
      { s with deauth_data := { s.deauth_data with targets := s.deauth_data.targets.iterate.2 } }
    obtain ⟨s3, e3, _⟩ := disassocLine_some send x s2
    refine ⟨{ s3 with deauth_data := { s3.deauth_data with pkt_time := m5 } }, ?_⟩
    unfold sendStep
    simp only [ge_iff_le, hf, if_true]
    rw [hit] at e2 ⊢
    simp only [e2, e3]
  · exact ⟨s, sendStep_wait send m4 m5 s (by omega)⟩

/-- The list of targets survives the send block. -/
theorem sendStep_list (send : Transport) (m4 m5 : Nat) (s s1 : Sys)
    (h : sendStep send m4 m5 s = some s1) :
    SameConfig s s1 ∧ s1.deauth_data.targets.list = s.deauth_data.targets.list := by
  by_cases hf : s.deauth_data.pkt_interval ≤ usub m4 s.deauth_data.pkt_time
  · obtain ⟨c, t, _⟩ := sendStep_fire send m4 m5 s s1 hf h
    exact ⟨c, by rw [t, iterate_list]⟩
  · rw [sendStep_wait send m4 m5 s (by omega)] at h
    simp only [Option.some.injEq] at h
    subst h
    exact ⟨SameConfig.refl s, rfl⟩

/-! ## Tick -/

/-- An idle controller ignores the tick. -/
theorem tick_idle (send : Transport) (now : Nat) (s : Sys) (h : Idle s) :
    tick send now s = some s := by
  unfold Idle at h
  simp [tick, updateDeauth, h]

/-- A tick that finds one of the two limits passed stops the attack. -/
theorem tick_expired (send : Transport) (now : Nat) (s : Sys) (hr : Running s)
    (he : expired now s.deauth_data = true) :
    tick send now s = some (stopDeauth s) := by
  unfold Running at hr
  simp [tick, updateDeauth, hr, he]

/-- A tick that finds no limit passed runs the status block, the send block and
the wrap-around line. -/
theorem tick_live (send : Transport) (now : Nat) (s : Sys) (hr : Running s)
    (he : expired now s.deauth_data = false) :
    tick send now s =
      (sendStep send now now (statusStep now now s)).map wrapStep := by
  unfold Running at hr
  simp only [tick, updateDeauth, hr, if_true, he, Bool.false_eq_true, if_false]
  cases sendStep send now now (statusStep now now s) <;> rfl

/-- A tick on a running attack whose cursor has an unvisited target and whose
limits are not passed: the attack keeps running on the same targets, with the
same configuration, and the cursor again has an unvisited target. -/
theorem tick_continues (send : Transport) (now : Nat) (s : Sys) (hr : Running s)
    (hav : s.deauth_data.targets.available = true)
    (he : expired now s.deauth_data = false) :
    ∃ s1, tick send now s = some s1 ∧ SameConfig s s1 ∧
      s1.deauth_data.targets.list = s.deauth_data.targets.list ∧
      s1.deauth_data.targets.available = true := by
  have hst := statusStep_frame now now s
  obtain ⟨s2, e2⟩ := sendStep_defined send now now (statusStep now now s) (by rw [hst.1]; exact hav)
  obtain ⟨c2, l2⟩ := sendStep_list send now now _ _ e2
  have hw := wrapStep_frame s2
  have hl : s2.deauth_data.targets.list = s.deauth_data.targets.list := by rw [l2, hst.1]
  have hne : s2.deauth_data.targets.list ≠ [] := by
    rw [hl]
    intro h0
    unfold Running TargetList.size at hr
    simp [h0] at hr
  refine ⟨wrapStep s2, ?_, ?_, ?_, wrapStep_available s2 hne⟩
  · rw [tick_live send now s hr he, e2]
    rfl
  · exact ((statusStep_sameConfig now now s).trans c2).trans hw.1
  · rw [hw.2.1, hl]


/-- The termination test, spelled out. -/
theorem expired_iff (m1 : Nat) (d : deauth_attack_data_t) :
    expired m1 d = true ↔
      (d.timeout > 0 ∧ usub m1 d.start_time > d.timeout) ∨
        (d.pkts > 0 ∧ d.pkts_sent ≥ d.pkts) := by
  simp [expired]

/-- A run of ticks, none of which finds the timeout passed, on an attack without
packet cap: the attack is still running on the same targets. -/
theorem ticks_before_timeout (pre : List (Nat × Transport)) (s : Sys) (hr : Running s)
    (hav : s.deauth_data.targets.available = true) (hp : s.deauth_data.pkts = 0)
    (hpre : ∀ e ∈ pre, usub e.1 s.deauth_data.start_time ≤ s.deauth_data.timeout) :
    ∃ s1, ticks pre s = some s1 ∧ SameConfig s s1 ∧
      s1.deauth_data.targets.list = s.deauth_data.targets.list ∧
      s1.deauth_data.targets.available = true := by
  induction pre generalizing s with
  | nil => exact ⟨s, rfl, SameConfig.refl s, rfl, hav⟩
  | cons e rest ih =>
    have he : expired e.1 s.deauth_data = false := by
      have h1 := hpre e (List.mem_cons_self _ _)
      have : ¬ expired e.1 s.deauth_data = true := by
        rw [expired_iff]
        omega
      simpa using this
    obtain ⟨s1, e1, c1, l1, a1⟩ := tick_continues e.2 e.1 s hr hav he
    have hr1 : Running s1 := by
      unfold Running TargetList.size at hr ⊢
      rw [l1]
      exact hr
    obtain ⟨s2, e2, c2, l2, a2⟩ := ih s1 hr1 a1 (by rw [c1.pkts]; exact hp)
      (by
        intro x hx
        rw [c1.start_time, c1.timeout]
        exact hpre x (List.mem_cons_of_mem _ hx))
    refine ⟨s2, ?_, c1.trans c2, by rw [l2, l1], a2⟩
    obtain ⟨now, send⟩ := e
    simp only [ticks]
    simp only at e1
    rw [e1]
    exact e2

/-- A run of ticks followed by one more tick. -/
theorem ticks_append_one (pre : List (Nat × Transport)) (e : Nat × Transport) (s s1 : Sys)
    (h : ticks pre s = some s1) : ticks (pre ++ [e]) s = tick e.2 e.1 s1 := by
  induction pre generalizing s with
  | nil =>
    simp only [ticks, Option.some.injEq] at h
    subst h
    obtain ⟨now, send⟩ := e
    simp only [List.nil_append, ticks]
    cases tick send now s <;> rfl
  | cons x rest ih =>
    obtain ⟨now, send⟩ := x
    simp only [ticks, List.cons_append] at h ⊢
    cases ht : tick send now s with
    | none => simp [ht] at h
    | some s2 =>
      rw [ht] at h
      simp only at h ⊢
      exact ih s2 h

/-- C9: on a running attack with `timeout > 0` and the packet cap not reached,
a tick at which the unsigned difference `now - start_time` is at most `timeout`
keeps the attack running on the same targets, and a tick at which it exceeds
`timeout` leaves the controller idle with an empty list and transmits nothing.
Without packet cap this holds along a run: as long as no tick finds the timeout
passed the attack runs, and the first tick that does stops it. The attack is
taken between two ticks, where its cursor has an unvisited target. -/
theorem tick_timeout (send : Transport) (now : Nat) (s : Sys) (hr : Running s)
    (hav : s.deauth_data.targets.available = true)
    (ht : s.deauth_data.timeout > 0)
    (hcap : s.deauth_data.pkts = 0 ∨ s.deauth_data.pkts_sent < s.deauth_data.pkts) :
    (usub now s.deauth_data.start_time ≤ s.deauth_data.timeout →
      ∃ s1, tick send now s = some s1 ∧ Running s1 ∧
        s1.deauth_data.targets.list = s.deauth_data.targets.list) ∧
    (usub now s.deauth_data.start_time > s.deauth_data.timeout →
      ∃ s1, tick send now s = some s1 ∧ Idle s1 ∧ s1.deauth_data.targets.size = 0 ∧
        s1.air = s.air) ∧
    (s.deauth_data.pkts = 0 →
      ∀ pre : List (Nat × Transport),
        (∀ e ∈ pre, usub e.1 s.deauth_data.start_time ≤ s.deauth_data.timeout) →
        usub now s.deauth_data.start_time > s.deauth_data.timeout →
        ∃ s1 s2, ticks pre s = some s1 ∧ Running s1 ∧
          s1.deauth_data.targets.list = s.deauth_data.targets.list ∧
          ticks (pre ++ [(now, send)]) s = some s2 ∧ Idle s2 ∧ s2.air = s1.air) := by
  refine ⟨?_, ?_, ?_⟩
  · intro hle
    have he : expired now s.deauth_data = false := by
      have : ¬ expired now s.deauth_data = true := by
        rw [expired_iff]
        omega
      simpa using this
    obtain ⟨s1, e1, _, l1, _⟩ := tick_continues send now s hr hav he
    refine ⟨s1, e1, ?_, l1⟩
    unfold Running TargetList.size at hr ⊢
    rw [l1]
    exact hr
  · intro hgt
    have he : expired now s.deauth_data = true := by
      rw [expired_iff]
      exact Or.inl ⟨ht, hgt⟩
    obtain ⟨h1, h2, _⟩ := stopDeauth_running s hr
    refine ⟨stopDeauth s, tick_expired send now s hr he, ?_, ?_, h2⟩
    · simp [Idle, h1, TargetList.size]
    · simp [h1, TargetList.size]
  · intro hp pre hpre hgt
    obtain ⟨s1, e1, c1, l1, _⟩ := ticks_before_timeout pre s hr hav hp hpre
    have hr1 : Running s1 := by
      unfold Running TargetList.size at hr ⊢
      rw [l1]
      exact hr
    have he : expired now s1.deauth_data = true := by
      rw [expired_iff, c1.timeout, c1.start_time]
      exact Or.inl ⟨ht, hgt⟩
    obtain ⟨h1, h2, _⟩ := stopDeauth_running s1 hr1
    refine ⟨s1, stopDeauth s1, e1, hr1, l1, ?_, ?_, h2⟩
    · rw [ticks_append_one pre (now, send) s s1 e1]
      exact tick_expired send now s1 hr1 he
    · simp [Idle, h1, TargetList.size]

/-- C9, with a timeout of 5000 ms on an attack started at 1000: the tick at 6000
keeps it running, the tick at 6001 stops it. -/
theorem tick_timeout_witness :
    (∃ s1, tick acceptAll 6000
        { exampleRunning with deauth_data := { exampleRunning.deauth_data with timeout := 5000 } } =
          some s1 ∧ Running s1 ∧ s1.deauth_data.targets.list = [exampleTarget]) ∧
    (∃ s1, tick acceptAll 6001
        { exampleRunning with deauth_data := { exampleRunning.deauth_data with timeout := 5000 } } =
          some s1 ∧ Idle s1 ∧ s1.deauth_data.targets.size = 0 ∧ s1.air = []) := by
  have h1 := (tick_timeout acceptAll 6000
    { exampleRunning with deauth_data := { exampleRunning.deauth_data with timeout := 5000 } }
    (by decide) (by decide) (by decide) (Or.inl rfl)).1 (by decide)
  have h2 := (tick_timeout acceptAll 6001
    { exampleRunning with deauth_data := { exampleRunning.deauth_data with timeout := 5000 } }
    (by decide) (by decide) (by decide) (Or.inl rfl)).2.1 (by decide)
  exact ⟨h1, h2⟩

/-- C10: on a running attack with `pkts > 0` and `pkts_sent ≥ pkts`, the tick
stops the attack, whatever the clock shows and whatever the timeout is: the
controller is idle, its list is empty and nothing was transmitted. -/
theorem tick_packet_cap (send : Transport) (now : Nat) (s : Sys) (hr : Running s)
    (hp : s.deauth_data.pkts > 0) (hs : s.deauth_data.pkts_sent ≥ s.deauth_data.pkts) :
    tick send now s = some (stopDeauth s) ∧ Idle (stopDeauth s) ∧
      (stopDeauth s).deauth_data.targets.size = 0 ∧ (stopDeauth s).air = s.air := by
  have he : expired now s.deauth_data = true := by
    rw [expired_iff]
    exact Or.inr ⟨hp, hs⟩
  obtain ⟨h1, h2, _⟩ := stopDeauth_running s hr
  refine ⟨tick_expired send now s hr he, ?_, ?_, h2⟩
  · simp [Idle, h1, TargetList.size]
  · simp [h1, TargetList.size]

/-- C10, with a cap of 10 packets, 10 packets counted and no timeout. -/
theorem tick_packet_cap_witness :
    (tick acceptAll 1001
        { exampleRunning with
          deauth_data := { exampleRunning.deauth_data with pkts := 10, pkts_sent := 10 } }).map
      (fun s1 => (s1.deauth_data.targets.size, s1.air.length)) = some (0, 0) := by
  rw [(tick_packet_cap acceptAll 1001
    { exampleRunning with
      deauth_data := { exampleRunning.deauth_data with pkts := 10, pkts_sent := 10 } }
    (by decide) (by decide) (by decide)).1]
  rfl


/-! ## The output sink does not steer the controller -/

theorem dropSink_idem (s : Sys) (o : List Out) : dropSink { s with sink := o } = dropSink s := rfl

theorem stopDeauth_dropSink (s : Sys) (o : List Out) :
    dropSink (stopDeauth { s with sink := o }) = dropSink (stopDeauth s) := by
  unfold stopDeauth
  dsimp only
  split <;> rfl

theorem statusStep_dropSink (m2 m3 : Nat) (s : Sys) (o : List Out) :
    ∃ o1, statusStep m2 m3 { s with sink := o } = { statusStep m2 m3 s with sink := o1 } := by
  unfold statusStep
  dsimp only
  split
  · exact ⟨_, rfl⟩
  · exact ⟨o, rfl⟩

theorem sendStep_sink (send : Transport) (m4 m5 : Nat) (s : Sys) (o : List Out) :
    sendStep send m4 m5 { s with sink := o } =
      (sendStep send m4 m5 s).map (fun r => { r with sink := o }) := by
  unfold sendStep
  dsimp only
  by_cases hf : s.deauth_data.pkt_interval ≤ usub m4 s.deauth_data.pkt_time
  · simp only [ge_iff_le, hf, if_true]
    cases hit : s.deauth_data.targets.iterate.1 <;>
      cases hd : s.deauth_data.deauth <;> cases ha : s.deauth_data.disassoc <;>
      simp [deauthLine, disassocLine, send_deauth, send_disassoc, hd, ha]
  · simp [hf]

theorem wrapStep_sink (s : Sys) (o : List Out) :
    wrapStep { s with sink := o } = { wrapStep s with sink := o } := by
  unfold wrapStep
  dsimp only
  split <;> rfl

/-- A tick decides and transmits the same whatever the output sink holds. -/
theorem tick_sink (send : Transport) (now : Nat) (s : Sys) (o : List Out) :
    (tick send now { s with sink := o }).map dropSink = (tick send now s).map dropSink := by
  unfold tick updateDeauth
  dsimp only
  by_cases hr : s.deauth_data.targets.size > 0
  · simp only [hr, if_true]
    by_cases he : expired now s.deauth_data = true
    · simp only [he, if_true, Option.map_some']
      rw [stopDeauth_dropSink]
    · simp only [he, Bool.false_eq_true, if_false]
      obtain ⟨o1, ho1⟩ := statusStep_dropSink now now s o
      rw [ho1, sendStep_sink]
      cases sendStep send now now (statusStep now now s) with
      | none => rfl
      | some s2 =>
        simp only [Option.map_some', wrapStep_sink]
        rfl
  · simp only [hr, if_false, Option.map_some']
    rfl

/-- Two states that differ in the output sink only, as every state with its
sink replaced. -/
theorem eq_of_dropSink {a b : Sys} (h : dropSink a = dropSink b) : a = { b with sink := a.sink } := by
  cases a
  cases b
  simp only [dropSink, Sys.mk.injEq] at h
  obtain ⟨h1, h2, _, h4⟩ := h
  subst h1
  subst h2
  subst h4
  rfl

/-- A run of ticks decides and transmits the same whatever the output sink holds. -/
theorem ticks_sink (tl : List (Nat × Transport)) (s : Sys) (o : List Out) :
    (ticks tl { s with sink := o }).map dropSink = (ticks tl s).map dropSink := by
  induction tl generalizing s o with
  | nil => rfl
  | cons e rest ih =>
    obtain ⟨now, send⟩ := e
    have h := tick_sink send now s o
    simp only [ticks]
    cases h1 : tick send now { s with sink := o } with
    | none =>
      cases h2 : tick send now s with
      | none => rfl
      | some b => simp [h1, h2] at h
    | some a =>
      cases h2 : tick send now s with
      | none => simp [h1, h2] at h
      | some b =>
        simp only [h1, h2, Option.map_some', Option.some.injEq] at h
        simp only
        rw [eq_of_dropSink h]
        exact ih b a.sink

/-- A run of ticks on an idle controller changes nothing. -/
theorem ticks_idle (tl : List (Nat × Transport)) (s : Sys) (h : Idle s) : ticks tl s = some s := by
  induction tl with
  | nil => rfl
  | cons e rest ih =>
    obtain ⟨now, send⟩ := e
    simp only [ticks, tick_idle send now s h]
    exact ih

/-- C4, refuted as stated: a start with an empty list on a running attack, and
the next tick transmits a frame. The running attack is the one that a start
with one target, deauthentication only and 10 packets per second leaves. -/
theorem failed_start_keeps_transmitting :
    (((start ⟨[exampleTarget], 0⟩ true false 10 0 0 false 1000 Sys.init).bind
        (fun r => start ⟨[], 0⟩ true false 10 0 0 false 2000 r.1)).bind
        (fun r => ticks [(2000, acceptAll)] r.1)).map (fun s => s.air.length) = some 1 := by
  decide

/-- C4, amended: after a start that is refused (empty list or both modes
disabled) every run of ticks transmits exactly what the same run transmits
without that start; in particular it transmits nothing when the controller was
idle. -/
theorem failed_start_then_ticks (targets : TargetList) (deauth disassoc : Bool)
    (rate timeout pkts : Nat) (silent : Bool) (now : Nat) (s : Sys)
    (tl : List (Nat × Transport))
    (h : targets.size = 0 ∨ (deauth = false ∧ disassoc = false)) :
    ∃ s1, start targets deauth disassoc rate timeout pkts silent now s = some (s1, targets) ∧
      s1.air = s.air ∧
      (ticks tl s1).map (fun r => r.air) = (ticks tl s).map (fun r => r.air) ∧
      (Idle s → ∃ s2, ticks tl s1 = some s2 ∧ s2.air = s.air) := by
  obtain ⟨o, hmsg⟩ := startDeauth_refused targets deauth disassoc rate timeout pkts silent
    now now s h
  refine ⟨_, hmsg, rfl, ?_, ?_⟩
  · have hs := ticks_sink tl s o
    have hmap : ∀ x : Option Sys, x.map (fun r => r.air) = (x.map dropSink).map (fun r => r.air) := by
      intro x
      cases x <;> rfl
    rw [hmap, hs, ← hmap]
  · intro hi
    exact ⟨_, ticks_idle tl _ hi, rfl⟩

/-- C4 as amended, on the initial state with both modes disabled. -/
theorem failed_start_then_ticks_witness :
    ∃ s1, start ⟨[exampleTarget], 0⟩ false false 10 0 0 false 1000 Sys.init =
        some (s1, ⟨[exampleTarget], 0⟩) ∧
      s1.air = [] ∧
      (ticks [(1000, acceptAll), (2000, acceptAll)] s1).map (fun r => r.air) =
        (ticks [(1000, acceptAll), (2000, acceptAll)] Sys.init).map (fun r => r.air) ∧
      (∃ s2, ticks [(1000, acceptAll), (2000, acceptAll)] s1 = some s2 ∧ s2.air = []) := by
  obtain ⟨s1, h1, h2, h3, h4⟩ :=
    failed_start_then_ticks ⟨[exampleTarget], 0⟩ false false 10 0 0 false 1000 Sys.init
      [(1000, acceptAll), (2000, acceptAll)] (Or.inr ⟨rfl, rfl⟩)
  exact ⟨s1, h1, h2, h3, h4 (by decide)⟩


/-! ## Pacing -/

/-- The unsigned difference is the difference when the clock has not wrapped. -/
theorem usub_of_le (a b : Nat) (hba : b ≤ a) (ha : a < 2 ^ 32) : usub a b = a - b := by
  unfold usub wrapSub ULONG_BITS
  have hb : b % 2 ^ 32 = b := Nat.mod_eq_of_lt (by omega)
  rw [hb]
  have h1 : a + (2 ^ 32 - b) = (a - b) + 2 ^ 32 := by omega
  rw [h1, Nat.add_mod_right]
  exact Nat.mod_eq_of_lt (by omega)

/-- What one tick does to the send time and to the record of transmitted frames:
either it leaves both, or the interval had elapsed, the send time is the clock
value and one frame went out for each enabled mode. -/
theorem tick_pacing (send : Transport) (now : Nat) (s s1 : Sys)
    (h : tick send now s = some s1) :
    SameConfig s s1 ∧
      ((s1.deauth_data.pkt_time = s.deauth_data.pkt_time ∧ s1.air.length = s.air.length) ∨
        (s.deauth_data.pkt_interval ≤ usub now s.deauth_data.pkt_time ∧
          s1.deauth_data.pkt_time = now ∧
          s1.air.length =
            s.air.length + (s.deauth_data.deauth.toNat + s.deauth_data.disassoc.toNat))) := by
  by_cases hr : Running s
  · by_cases he : expired now s.deauth_data = true
    · rw [tick_expired send now s hr he] at h
      simp only [Option.some.injEq] at h
      subst h
      refine ⟨stopDeauth_sameConfig s, Or.inl ⟨?_, (stopDeauth_running s hr).2.1 ▸ rfl⟩⟩
      unfold Running at hr
      simp [stopDeauth, hr]
    · have he0 : expired now s.deauth_data = false := by simpa using he
      rw [tick_live send now s hr he0] at h
      cases h2 : sendStep send now now (statusStep now now s) with
      | none => simp [h2] at h
      | some s2 =>
        rw [h2] at h
        simp only [Option.map_some', Option.some.injEq] at h
        subst h
        have hst := statusStep_frame now now s
        have cst := statusStep_sameConfig now now s
        have hw := wrapStep_frame s2
        by_cases hf : (statusStep now now s).deauth_data.pkt_interval ≤
            usub now (statusStep now now s).deauth_data.pkt_time
        · obtain ⟨c2, _, p2, _, _, _, a2⟩ := sendStep_fire send now now _ _ hf h2
          refine ⟨(cst.trans c2).trans hw.1, Or.inr ⟨?_, ?_, ?_⟩⟩
          · rw [← cst.pkt_interval, ← hst.2.1]
            exact hf
          · rw [hw.2.2.1, p2]
          · rw [hw.2.2.2.2.2.2.1, a2, hst.2.2.1, cst.deauth, cst.disassoc]
        · rw [sendStep_wait send now now _ (by omega)] at h2
          simp only [Option.some.injEq] at h2
          subst h2
          refine ⟨cst.trans hw.1, Or.inl ⟨?_, ?_⟩⟩
          · rw [hw.2.2.1, hst.2.1]
          · rw [hw.2.2.2.2.2.2.1, hst.2.2.1]
  · have hi : Idle s := by
      unfold Running at hr
      unfold Idle
      omega
    rw [tick_idle send now s hi] at h
    simp only [Option.some.injEq] at h
    subst h
    exact ⟨SameConfig.refl s, Or.inl ⟨rfl, rfl⟩⟩


theorem framesIn_nil (a len : Nat) : framesIn a len [] = 0 := rfl

theorem framesIn_cons (a len t c : Nat) (log : List (Nat × Nat)) :
    framesIn a len ((t, c) :: log) =
      (if a ≤ t ∧ t < a + len then c else 0) + framesIn a len log := by
  unfold framesIn
  by_cases h : a ≤ t ∧ t < a + len
  · simp [List.filter_cons, h]
  · simp only [List.filter_cons, h, decide_False, Bool.false_eq_true, if_false]
    omega

/-- A send inside the span uses up one of the places that the span still had. -/
theorem span_step (a len I now m : Nat) (hI : 0 < I) (hm : m ≤ now) (hhi : now < a + len) :
    1 + (a + len - (now + I) + (I - 1)) / I ≤ (a + len - m + (I - 1)) / I := by
  by_cases hc : now + I ≤ a + len
  · have h1 : a + len - (now + I) + (I - 1) + I ≤ a + len - m + (I - 1) := by omega
    calc 1 + (a + len - (now + I) + (I - 1)) / I
        = (a + len - (now + I) + (I - 1) + I) / I := by
          rw [Nat.add_div_right _ hI]
          omega
      _ ≤ (a + len - m + (I - 1)) / I := Nat.div_le_div_right h1
  · have h0 : a + len - (now + I) = 0 := by omega
    have h1 : (I - 1) / I = 0 := Nat.div_eq_of_lt (by omega)
    have h2 : I ≤ a + len - m + (I - 1) := by omega
    have h3 : 1 ≤ (a + len - m + (I - 1)) / I := (Nat.one_le_div_iff hI).mpr h2
    rw [h0, Nat.zero_add, h1]
    exact h3

/-- The frames that a run transmits inside a span of clock time, counted from
the last send time: successive sends are at least one interval apart, and each
send transmits one frame per enabled mode. -/
theorem sendLog_span (a len I k : Nat) (hI : 0 < I) (tl : List (Nat × Transport)) (s : Sys)
    (hint : s.deauth_data.pkt_interval = I)
    (hk : s.deauth_data.deauth.toNat + s.deauth_data.disassoc.toNat = k)
    (hsorted : (tl.map Prod.fst).Pairwise (fun x y => x ≤ y))
    (hclock : ∀ e ∈ tl, s.deauth_data.pkt_time ≤ e.1 ∧ e.1 < 2 ^ 32) :
    framesIn a len (sendLog tl s) ≤
      k * ((a + len - max a (s.deauth_data.pkt_time + I) + (I - 1)) / I) := by
  induction tl generalizing s with
  | nil => simp [sendLog, framesIn_nil]
  | cons e rest ih =>
    obtain ⟨now, send⟩ := e
    simp only [sendLog]
    cases ht : tick send now s with
    | none => simp [framesIn_nil]
    | some s1 =>
      simp only
      obtain ⟨c1, hcase⟩ := tick_pacing send now s s1 ht
      have hnow := hclock (now, send) (List.mem_cons_self _ _)
      simp only at hnow
      simp only [List.map_cons, List.pairwise_cons] at hsorted
      obtain ⟨hle, hrest⟩ := hsorted
      have hk1 : s1.deauth_data.deauth.toNat + s1.deauth_data.disassoc.toNat = k := by
        rw [c1.deauth, c1.disassoc]
        exact hk
      have hint1 : s1.deauth_data.pkt_interval = I := by rw [c1.pkt_interval]; exact hint
      rw [framesIn_cons]
      rcases hcase with ⟨hp, ha⟩ | ⟨hf, hp, ha⟩
      · have hrec := ih s1 hint1 hk1 hrest (by
          intro x hx
          rw [hp]
          exact hclock x (List.mem_cons_of_mem _ hx))
        rw [hp] at hrec
        have h0 : s1.air.length - s.air.length = 0 := by omega
        rw [h0]
        simpa using hrec
      · have hrec := ih s1 hint1 hk1 hrest (by
          intro x hx
          rw [hp]
          refine ⟨?_, (hclock x (List.mem_cons_of_mem _ hx)).2⟩
          exact hle x.1 (List.mem_map_of_mem _ hx))
        rw [hp] at hrec
        have hc : s1.air.length - s.air.length = k := by omega
        rw [hc]
        rw [usub_of_le now _ hnow.1 hnow.2, hint] at hf
        by_cases hwin : a ≤ now ∧ now < a + len
        · simp only [hwin, and_self, if_true]
          have hmax : max a (now + I) = now + I := by omega
          rw [hmax] at hrec
          have hstep := span_step a len I now (max a (s.deauth_data.pkt_time + I)) hI
            (by omega) hwin.2
          calc k + framesIn a len (sendLog rest s1)
              ≤ k + k * ((a + len - (now + I) + (I - 1)) / I) := Nat.add_le_add_left hrec k
            _ = k * (1 + (a + len - (now + I) + (I - 1)) / I) := by ring
            _ ≤ k * ((a + len - max a (s.deauth_data.pkt_time + I) + (I - 1)) / I) :=
              Nat.mul_le_mul_left k hstep
        · simp only [hwin, if_false, Nat.zero_add]
          refine le_trans hrec (Nat.mul_le_mul_left k (Nat.div_le_div_right ?_))
          omega

/-- A run of ticks is defined as long as the cursor has an unvisited target
whenever the attack runs. -/
theorem ticks_defined (tl : List (Nat × Transport)) (s : Sys)
    (hav : Running s → s.deauth_data.targets.available = true) :
    ∃ s1, ticks tl s = some s1 := by
  induction tl generalizing s with
  | nil => exact ⟨s, rfl⟩
  | cons e rest ih =>
    obtain ⟨now, send⟩ := e
    simp only [ticks]
    by_cases hr : Running s
    · by_cases he : expired now s.deauth_data = true
      · rw [tick_expired send now s hr he]
        refine ih (stopDeauth s) ?_
        intro h
        have := (stopDeauth_running s hr).1
        simp [Running, this, TargetList.size] at h
      · have he0 : expired now s.deauth_data = false := by simpa using he
        obtain ⟨s1, e1, _, _, a1⟩ := tick_continues send now s hr (hav hr) he0
        rw [e1]
        exact ih s1 (fun _ => a1)
    · have hi : Idle s := by
        unfold Running at hr
        unfold Idle
        omega
      rw [tick_idle send now s hi]
      exact ih s (fun h => absurd h hr)


/-- The record of a defined run has one entry per tick. -/
theorem sendLog_length (tl : List (Nat × Transport)) (s s1 : Sys) (h : ticks tl s = some s1) :
    (sendLog tl s).length = tl.length := by
  induction tl generalizing s with
  | nil => rfl
  | cons e rest ih =>
    obtain ⟨now, send⟩ := e
    simp only [ticks] at h
    simp only [sendLog]
    cases ht : tick send now s with
    | none => simp [ht] at h
    | some s2 =>
      rw [ht] at h
      simp only [List.length_cons, Nat.add_right_cancel_iff] at h ⊢
      exact ih s2 h

/-- C8, refuted as stated. At 3 packets per second and one mode the interval is
333 ms, and ticks at 333, 666, 999 and 1332 ms transmit 4 frames within a span
of 1000 ms. At 1 packet per second and both modes one tick transmits 2 frames. -/
theorem rate_budget_exceeded :
    (start ⟨[exampleTarget], 0⟩ true false 3 0 0 false 0 Sys.init).map
        (fun r => framesIn 333 1000
          (sendLog [(333, acceptAll), (666, acceptAll), (999, acceptAll), (1332, acceptAll)] r.1)) =
      some 4 ∧
    (start ⟨[exampleTarget], 0⟩ true true 1 0 0 false 0 Sys.init).map
        (fun r => framesIn 2000 1000 (sendLog [(2000, acceptAll)] r.1)) = some 2 := by
  decide

/-- C8, amended. On a running attack (its cursor has an unvisited target) whose
interval is the one that `start` installs for its rate and modes, with
`0 < rate ≤ 1000`, every run of ticks
with non-decreasing clock values (below `2 ^ 32` and not before the last send
time) is defined, and the frames transmitted by the ticks whose clock value
lies in a span `a ≤ t < a + 1000` number at most
`framesPerVisit * (floor(999 / interval) + 1)`; with one mode and a rate that
divides 1000 this bound is the rate. -/
theorem frames_per_span (tl : List (Nat × Transport)) (s : Sys) (a : Nat)
    (hav : s.deauth_data.targets.available = true)
    (hint : s.deauth_data.pkt_interval =
      pktInterval s.deauth_data.rate s.deauth_data.deauth s.deauth_data.disassoc)
    (hrate : 0 < s.deauth_data.rate ∧ s.deauth_data.rate ≤ 1000)
    (hmode : s.deauth_data.deauth = true ∨ s.deauth_data.disassoc = true)
    (hsorted : (tl.map Prod.fst).Pairwise (fun x y => x ≤ y))
    (hclock : ∀ e ∈ tl, s.deauth_data.pkt_time ≤ e.1 ∧ e.1 < 2 ^ 32) :
    (∃ s1, ticks tl s = some s1) ∧ (sendLog tl s).length = tl.length ∧
    framesIn a 1000 (sendLog tl s) ≤
      spec_framesPerVisit s.deauth_data.deauth s.deauth_data.disassoc *
        (999 / spec_interPacketIntervalMs s.deauth_data.rate
          (spec_framesPerVisit s.deauth_data.deauth s.deauth_data.disassoc) + 1) ∧
    (spec_framesPerVisit s.deauth_data.deauth s.deauth_data.disassoc = 1 →
      s.deauth_data.rate ∣ 1000 → framesIn a 1000 (sendLog tl s) ≤ s.deauth_data.rate) := by
  obtain ⟨s1, hs1⟩ := ticks_defined tl s (fun _ => hav)
  have hfpv : s.deauth_data.deauth.toNat + s.deauth_data.disassoc.toNat =
      spec_framesPerVisit s.deauth_data.deauth s.deauth_data.disassoc := by
    cases hd : s.deauth_data.deauth <;> cases ha : s.deauth_data.disassoc <;>
      simp [spec_framesPerVisit, hd, ha] at hmode ⊢
  have hI : s.deauth_data.pkt_interval =
      spec_interPacketIntervalMs s.deauth_data.rate
        (spec_framesPerVisit s.deauth_data.deauth s.deauth_data.disassoc) := by
    rw [hint, pktInterval_eq, hfpv]
    rfl
  have hq : 0 < 1000 / s.deauth_data.rate := Nat.div_pos hrate.2 hrate.1
  have hfpos : 0 < spec_framesPerVisit s.deauth_data.deauth s.deauth_data.disassoc := by
    rw [← hfpv]
    rcases hmode with h | h <;> simp [h]
  have hIpos : 0 < s.deauth_data.pkt_interval := by
    rw [hI]
    exact Nat.mul_pos hq hfpos
  have hmain := sendLog_span a 1000 s.deauth_data.pkt_interval _ hIpos tl s rfl hfpv hsorted hclock
  have hbound : framesIn a 1000 (sendLog tl s) ≤
      spec_framesPerVisit s.deauth_data.deauth s.deauth_data.disassoc *
        (999 / s.deauth_data.pkt_interval + 1) := by
    refine le_trans hmain (Nat.mul_le_mul_left _ ?_)
    rw [← Nat.add_div_right _ hIpos]
    apply Nat.div_le_div_right
    omega
  refine ⟨⟨s1, hs1⟩, sendLog_length tl s s1 hs1, ?_, ?_⟩
  · rw [← hI]
    exact hbound
  · intro h1 hdvd
    rw [h1, Nat.one_mul] at hbound
    refine le_trans hbound ?_
    have hI1 : s.deauth_data.pkt_interval = 1000 / s.deauth_data.rate := by
      rw [hI, h1]
      simp [spec_interPacketIntervalMs]
    have hmul : s.deauth_data.rate * s.deauth_data.pkt_interval = 1000 := by
      rw [hI1]
      exact Nat.mul_div_cancel' hdvd
    have hlt : 999 / s.deauth_data.pkt_interval < s.deauth_data.rate := by
      rw [Nat.div_lt_iff_lt_mul hIpos]
      omega
    omega

/-- C8 as amended, at 10 packets per second and one mode: five ticks, of which
those at 1000 and 1100 ms transmit, and at most 10 frames in the span that
starts at 1000 ms. -/
theorem frames_per_span_witness :
    (∃ s1, ticks [(1000, acceptAll), (1050, refuseAll), (1100, acceptAll), (1100, acceptAll),
      (1150, acceptAll)] exampleRunning = some s1) ∧
    framesIn 1000 1000 (sendLog [(1000, acceptAll), (1050, refuseAll), (1100, acceptAll),
      (1100, acceptAll), (1150, acceptAll)] exampleRunning) ≤ 10 ∧
    framesIn 1000 1000 (sendLog [(1000, acceptAll), (1050, refuseAll), (1100, acceptAll),
      (1100, acceptAll), (1150, acceptAll)] exampleRunning) = 2 := by
  obtain ⟨h1, _, _, h4⟩ := frames_per_span
    [(1000, acceptAll), (1050, refuseAll), (1100, acceptAll), (1100, acceptAll),
      (1150, acceptAll)] exampleRunning 1000
    (by decide) (by decide) (by decide) (Or.inl rfl) (by decide) (by decide)
  exact ⟨h1, h4 (by decide) (by decide), by decide⟩


/-! ## The cursor between calls -/

theorem init_settled : CursorSettled Sys.init :=
  ⟨fun _ => rfl, fun h => absurd h (by decide)⟩

theorem stopDeauth_settled (s : Sys) (h : CursorSettled s) : CursorSettled (stopDeauth s) := by
  by_cases hr : Running s
  · have ht := (stopDeauth_running s hr).1
    refine ⟨fun _ => by rw [ht], fun h1 => ?_⟩
    simp [Running, ht, TargetList.size] at h1
  · have hs : stopDeauth s = s := by
      unfold Running at hr
      simp [stopDeauth, hr]
    rw [hs]
    exact h

/-- Every defined tick leaves the cursor settled. -/
theorem tick_settled (send : Transport) (now : Nat) (s s1 : Sys) (h : CursorSettled s)
    (ht : tick send now s = some s1) : CursorSettled s1 := by
  by_cases hr : Running s
  · by_cases he : expired now s.deauth_data = true
    · rw [tick_expired send now s hr he] at ht
      simp only [Option.some.injEq] at ht
      subst ht
      exact stopDeauth_settled s h
    · have he0 : expired now s.deauth_data = false := by simpa using he
      obtain ⟨s2, e2, _, l2, a2⟩ := tick_continues send now s hr (h.2 hr) he0
      rw [e2] at ht
      simp only [Option.some.injEq] at ht
      subst ht
      refine ⟨fun hi => ?_, fun _ => a2⟩
      unfold Idle TargetList.size at hi
      unfold Running TargetList.size at hr
      rw [l2] at hi
      omega
  · have hi : Idle s := by
      unfold Running at hr
      unfold Idle
      omega
    rw [tick_idle send now s hi] at ht
    simp only [Option.some.injEq] at ht
    subst ht
    exact h

/-- Every defined call of `startDeauth` leaves the cursor settled. -/
theorem startDeauth_settled (targets : TargetList) (deauth disassoc : Bool)
    (rate timeout pkts : Nat) (silent : Bool) (m1 m2 : Nat) (s s1 : Sys) (c : TargetList)
    (h : CursorSettled s)
    (hs : startDeauth targets deauth disassoc rate timeout pkts silent m1 m2 s = some (s1, c)) :
    CursorSettled s1 := by
  by_cases hrej : targets.size = 0 ∨ (deauth = false ∧ disassoc = false)
  · obtain ⟨o, hmsg⟩ := startDeauth_refused targets deauth disassoc rate timeout pkts silent
      m1 m2 s hrej
    rw [hmsg] at hs
    simp only [Option.some.injEq, Prod.mk.injEq] at hs
    rw [← hs.1]
    exact h
  · have ht : targets.size > 0 := by omega
    have hm : deauth = true ∨ disassoc = true := by
      cases deauth <;> cases disassoc <;> simp at hrej ⊢
    by_cases hr : rate = 0
    · subst hr
      have hp := printTargets_fuel (targets.begin.size - targets.begin.pos) targets.begin
        ((stopDeauth s).sink ++ summaryHead targets.size deauth disassoc 0 timeout pkts)
        (by simp [TargetList.size])
      have h0 : ¬ targets.size = 0 := by omega
      have hmode : (!deauth && !disassoc) = false := by
        rcases hm with h | h <;> simp [h]
      unfold startDeauth at hs
      simp only [h0, if_false, hmode, Bool.false_eq_true, hp, if_true] at hs
      exact absurd hs (by simp)
    · rw [startDeauth_accepts targets deauth disassoc rate timeout pkts silent m1 m2 s ht hm
        (by omega)] at hs
      simp only [Option.some.injEq, Prod.mk.injEq] at hs
      rw [← hs.1]
      have hstop := stopDeauth_settled s h
      have hlist := stopDeauth_list s
      have hpos : (stopDeauth s).deauth_data.targets.pos = 0 :=
        hstop.1 (by simp [Idle, TargetList.size, hlist])
      unfold TargetList.size at ht
      refine ⟨fun hi => ?_, fun _ => ?_⟩
      · simp only [Idle, TargetList.size] at hi
        omega
      · simp [TargetList.available, hpos, ht]

/-! ## Stop -/

/-- On an idle controller `stopDeauth` does nothing. -/
theorem stopDeauth_of_idle (s : Sys) (h : Idle s) : stopDeauth s = s := by
  unfold Idle at h
  simp [stopDeauth, h]

/-- On a running controller `stopDeauth` folds the window into the total, empties
the list and writes the report. -/
theorem stopDeauth_of_running (s : Sys) (h : Running s) :
    stopDeauth s =
      { s with
        deauth_data :=
          { s.deauth_data with
            pkts_sent := uadd s.deauth_data.pkts_sent s.deauth_data.pkts_per_second
            targets := ⟨[], 0⟩ }
        sink := s.sink ++
          [Out.debugF "Deauth attack stopped. Sent ",
           Out.debug (Printable.num
             (uadd s.deauth_data.pkts_sent s.deauth_data.pkts_per_second)),
           Out.debuglnF " packets."] } := by
  unfold Running at h
  simp [stopDeauth, h, TargetList.clear]

/-- The machine sum is the sum as long as it fits into 32 bits. -/
theorem uadd_of_lt (a b : Nat) (h : a + b < 2 ^ 32) : uadd a b = a + b := by
  unfold uadd wrapAdd ULONG_BITS
  exact Nat.mod_eq_of_lt h

/-- C11: on an idle controller `stopDeauth` returns the state as it was, output
sink included. On a running controller it sets `pkts_sent` to the unsigned sum
`pkts_sent + pkts_per_second` (the plain sum whenever that fits into 32 bits),
empties the list, leaves every configuration field as it was and appends one
report, which carries the new `pkts_sent`; the controller is idle afterwards. -/
theorem stopDeauth_effect (s : Sys) :
    (Idle s → stopDeauth s = s) ∧
    (Running s →
      stopDeauth s =
          { s with
            deauth_data :=
              { s.deauth_data with
                pkts_sent := uadd s.deauth_data.pkts_sent s.deauth_data.pkts_per_second
                targets := ⟨[], 0⟩ }
            sink := s.sink ++
              [Out.debugF "Deauth attack stopped. Sent ",
               Out.debug (Printable.num
                 (uadd s.deauth_data.pkts_sent s.deauth_data.pkts_per_second)),
               Out.debuglnF " packets."] } ∧
        Idle (stopDeauth s) ∧ (stopDeauth s).deauth_data.targets.size = 0 ∧
        SameConfig s (stopDeauth s) ∧
        (s.deauth_data.pkts_sent + s.deauth_data.pkts_per_second < 2 ^ 32 →
          (stopDeauth s).deauth_data.pkts_sent =
            s.deauth_data.pkts_sent + s.deauth_data.pkts_per_second)) := by
  refine ⟨stopDeauth_of_idle s, fun hr => ?_⟩
  have he := stopDeauth_of_running s hr
  refine ⟨he, ?_, ?_, stopDeauth_sameConfig s, fun hlt => ?_⟩
  · rw [he]
    rfl
  · rw [he]
    rfl
  · rw [he]
    exact uadd_of_lt _ _ hlt

/-- C11, on the initial state and on a running attack with 40 packets counted
and 3 in the window. -/
theorem stopDeauth_effect_witness :
    stopDeauth Sys.init = Sys.init ∧
    (stopDeauth
      { exampleRunning with
        deauth_data :=
          { exampleRunning.deauth_data with pkts_sent := 40, pkts_per_second := 3 } }).deauth_data.pkts_sent
        = 43 ∧
    (stopDeauth
      { exampleRunning with
        deauth_data :=
          { exampleRunning.deauth_data with pkts_sent := 40, pkts_per_second := 3 } }).sink =
      [Out.debugF "Deauth attack stopped. Sent ", Out.debug (Printable.num 43),
        Out.debuglnF " packets."] := by
  have h0 := (stopDeauth_effect Sys.init).1 (by decide)
  have h1 := (stopDeauth_effect
    { exampleRunning with
      deauth_data :=
        { exampleRunning.deauth_data with pkts_sent := 40, pkts_per_second := 3 } }).2 (by decide)
  refine ⟨h0, h1.2.2.2.2 (by decide), ?_⟩
  rw [h1.1]
  rfl

/-- C12: for every state, a second `stopDeauth` right after the first changes
nothing: the state after two calls is the state after one, so the output sink
holds the output of one call and `pkts_sent` has taken up the window once. -/
theorem stopDeauth_idempotent (s : Sys) :
    stopDeauth (stopDeauth s) = stopDeauth s ∧
      (stopDeauth (stopDeauth s)).sink = (stopDeauth s).sink ∧
      (stopDeauth (stopDeauth s)).deauth_data.pkts_sent = (stopDeauth s).deauth_data.pkts_sent ∧
      (Running s →
        (stopDeauth (stopDeauth s)).deauth_data.pkts_sent =
          uadd s.deauth_data.pkts_sent s.deauth_data.pkts_per_second) := by
  have hi : Idle (stopDeauth s) := by
    unfold Idle TargetList.size
    rw [stopDeauth_list]
    rfl
  have h := stopDeauth_of_idle (stopDeauth s) hi
  refine ⟨h, by rw [h], by rw [h], fun hr => ?_⟩
  rw [h]
  exact (stopDeauth_running s hr).2.2.2

/-- C12, on a running attack with 40 packets counted and 3 in the window: one
report, and 43 packets after the second call as after the first. -/
theorem stopDeauth_idempotent_witness :
    (stopDeauth (stopDeauth
      { exampleRunning with
        deauth_data :=
          { exampleRunning.deauth_data with pkts_sent := 40, pkts_per_second := 3 } })).sink =
      [Out.debugF "Deauth attack stopped. Sent ", Out.debug (Printable.num 43),
        Out.debuglnF " packets."] ∧
    (stopDeauth (stopDeauth
      { exampleRunning with
        deauth_data :=
          { exampleRunning.deauth_data with pkts_sent := 40, pkts_per_second := 3 } })).deauth_data.pkts_sent
        = 43 := by
  have h := stopDeauth_idempotent
    { exampleRunning with
      deauth_data := { exampleRunning.deauth_data with pkts_sent := 40, pkts_per_second := 3 } }
  refine ⟨?_, ?_⟩
  · rw [h.2.1]
    rfl
  · rw [h.2.2.2 (by decide)]
    rfl

/-! ## The summary of start and the `silent` flag -/

/-- C15, refuted as stated: a start with `silent = true` on the idle initial
state writes the whole summary to the output sink. -/
theorem silent_start_writes_summary :
    (start ⟨[exampleTarget], 0⟩ true false 10 0 0 true 1000 Sys.init).map (fun r => r.1.sink) =
      some
        [Out.debuglnF "[ ===== Deauth Attack ===== ]",
         Out.debug (Printable.left 16 "Mode:"),
         Out.debuglnF "deauthentication",
         Out.debug (Printable.left 16 "Packets/second:"),
         Out.debugln (Printable.num 10),
         Out.debug (Printable.left 16 "Timeout:"),
         Out.debugln (Printable.str "-"),
         Out.debug (Printable.left 16 "Max. packets:"),
         Out.debugln (Printable.str "-"),
         Out.debug (Printable.left 16 "Targets:"),
         Out.debugln (Printable.num 1),
         Out.debugF "- transmitter ",
         Out.debug (Printable.mac [0xAA, 0xAA, 0xAA, 0xAA, 0xAA, 0xAA]),
         Out.debugF ", receiver ",
         Out.debug (Printable.mac [0xBB, 0xBB, 0xBB, 0xBB, 0xBB, 0xBB]),
         Out.debugF ", channel ",
         Out.debugln (Printable.num 6),
         Out.newline,
         Out.debuglnF "Type 'stop' to stop the attack",
         Out.newline] := by
  rfl

/-- C15, amended: a successful start on an idle controller appends the summary
(heading, mode, rate, timeout, packet cap, target count, one line per target,
the closing lines) to the output sink whatever `silent` is; the output with
`silent = true` is the output with `silent = false`. -/
theorem start_summary (targets : TargetList) (deauth disassoc : Bool)
    (rate timeout pkts : Nat) (silent : Bool) (now : Nat) (s : Sys) (hi : Idle s)
    (ht : targets.size > 0) (hm : deauth = true ∨ disassoc = true) (hr : rate > 0) :
    (start targets deauth disassoc rate timeout pkts silent now s).map (fun r => r.1.sink) =
        some (s.sink ++ summaryHead targets.size deauth disassoc rate timeout pkts ++
          (targets.list.map targetLine).flatten ++ summaryTail) ∧
      (start targets deauth disassoc rate timeout pkts true now s).map (fun r => r.1.sink) =
        (start targets deauth disassoc rate timeout pkts false now s).map (fun r => r.1.sink) := by
  have h : ∀ b : Bool,
      (start targets deauth disassoc rate timeout pkts b now s).map (fun r => r.1.sink) =
        some (s.sink ++ summaryHead targets.size deauth disassoc rate timeout pkts ++
          (targets.list.map targetLine).flatten ++ summaryTail) := by
    intro b
    unfold start
    rw [startDeauth_accepts targets deauth disassoc rate timeout pkts b now now s ht hm hr,
      stopDeauth_of_idle s hi]
    rfl
  exact ⟨h silent, by rw [h true, h false]⟩

/-- C15 as amended, with two targets on the initial state. -/
theorem start_summary_witness :
    (start ⟨[exampleTarget, exampleTarget2], 0⟩ true true 10 5000 0 true 1000 Sys.init).map
        (fun r => r.1.sink.length) = some 26 ∧
      (start ⟨[exampleTarget, exampleTarget2], 0⟩ true true 10 5000 0 true 1000 Sys.init).map
          (fun r => r.1.sink) =
        (start ⟨[exampleTarget, exampleTarget2], 0⟩ true true 10 5000 0 false 1000 Sys.init).map
          (fun r => r.1.sink) := by
  have h := start_summary ⟨[exampleTarget, exampleTarget2], 0⟩ true true 10 5000 0 true 1000
    Sys.init (by decide) (by decide) (Or.inl rfl) (by decide)
  exact ⟨by decide, h.2⟩

/-! ## Reachable states -/

/-- The cursor is settled in every reachable state. -/
theorem Reachable.settled {s : Sys} (h : Reachable s) : CursorSettled s := by
  induction h with
  | init => exact init_settled
  | start targets deauth disassoc rate timeout pkts silent m1 m2 s s1 caller _ hs ih =>
    exact startDeauth_settled targets deauth disassoc rate timeout pkts silent m1 m2 s s1 caller
      ih hs
  | stop s _ ih => exact stopDeauth_settled s ih
  | tick send now s s1 _ ht ih => exact tick_settled send now s s1 ih ht

/-- A defined run of ticks leaves the cursor settled. -/
theorem ticks_settled (tl : List (Nat × Transport)) (s s1 : Sys) (h : CursorSettled s)
    (ht : ticks tl s = some s1) : CursorSettled s1 := by
  induction tl generalizing s with
  | nil =>
    simp only [ticks, Option.some.injEq] at ht
    subst ht
    exact h
  | cons e rest ih =>
    obtain ⟨now, send⟩ := e
    simp only [ticks] at ht
    cases h1 : tick send now s with
    | none => simp [h1] at ht
    | some s2 =>
      rw [h1] at ht
      exact ih s2 (tick_settled send now s s2 h h1) ht

/-- Once idle, always idle: a run of ticks that ends in a running attack started
from a running attack. -/
theorem ticks_running_source (tl : List (Nat × Transport)) (s s1 : Sys)
    (ht : ticks tl s = some s1) (hr : Running s1) : Running s := by
  by_cases h : Running s
  · exact h
  · have hi : Idle s := by
      unfold Running at h
      unfold Idle
      omega
    rw [ticks_idle tl s hi] at ht
    simp only [Option.some.injEq] at ht
    subst ht
    exact absurd hr h

/-- What a tick that does not stop the attack leaves of the state after its
status block. -/
theorem tick_live_fields (send : Transport) (now : Nat) (s s1 : Sys) (hr : Running s)
    (he : expired now s.deauth_data = false) (ht : tick send now s = some s1) :
    s1.deauth_data.pkts_sent = (statusStep now now s).deauth_data.pkts_sent ∧
      s1.deauth_data.output_time = (statusStep now now s).deauth_data.output_time ∧
      s1.sink = (statusStep now now s).sink ∧
      s1.deauth_data.targets.list = s.deauth_data.targets.list := by
  rw [tick_live send now s hr he] at ht
  cases h2 : sendStep send now now (statusStep now now s) with
  | none => simp [h2] at ht
  | some s2 =>
    rw [h2] at ht
    simp only [Option.map_some', Option.some.injEq] at ht
    subst ht
    have hw := wrapStep_frame s2
    have hl := (sendStep_list send now now _ _ h2).2
    rw [(statusStep_frame now now s).1] at hl
    by_cases hf : (statusStep now now s).deauth_data.pkt_interval ≤
        usub now (statusStep now now s).deauth_data.pkt_time
    · obtain ⟨_, _, _, n2, o2, k2, _⟩ := sendStep_fire send now now _ _ hf h2
      exact ⟨by rw [hw.2.2.2.1, n2], by rw [hw.2.2.2.2.2.1, o2], by rw [hw.2.2.2.2.2.2.2.2, k2],
        by rw [hw.2.1, hl]⟩
    · rw [sendStep_wait send now now _ (by omega)] at h2
      simp only [Option.some.injEq] at h2
      subst h2
      exact ⟨hw.2.2.2.1, hw.2.2.2.2.2.1, hw.2.2.2.2.2.2.2.2, by rw [hw.2.1, (statusStep_frame now now s).1]⟩

/-- With `silent` set the status block does nothing. -/
theorem statusStep_silent (m2 m3 : Nat) (s : Sys) (h : s.deauth_data.silent = true) :
    statusStep m2 m3 s = s := by
  rcases statusStep_cases m2 m3 s with ⟨h1, _⟩ | ⟨_, h2, _⟩
  · exact h1
  · rw [h] at h2
    exact absurd h2 (by decide)

/-- With `silent` set a tick that leaves the attack running leaves `pkts_sent`. -/
theorem tick_silent (send : Transport) (now : Nat) (s s1 : Sys)
    (hs : s.deauth_data.silent = true) (ht : tick send now s = some s1) (hr1 : Running s1) :
    s1.deauth_data.pkts_sent = s.deauth_data.pkts_sent := by
  have hr : Running s := ticks_running_source [(now, send)] s s1 (by simp [ticks, ht]) hr1
  by_cases he : expired now s.deauth_data = true
  · rw [tick_expired send now s hr he] at ht
    simp only [Option.some.injEq] at ht
    subst ht
    have := (stopDeauth_running s hr).1
    simp [Running, this, TargetList.size] at hr1
  · have he0 : expired now s.deauth_data = false := by simpa using he
    have h := (tick_live_fields send now s s1 hr he0 ht).1
    rw [statusStep_silent now now s hs] at h
    exact h

/-- With `silent` set a run of ticks that ends in a running attack has left
`pkts_sent` as it was. -/
theorem ticks_silent (tl : List (Nat × Transport)) (s s1 : Sys)
    (hs : s.deauth_data.silent = true) (ht : ticks tl s = some s1) (hr1 : Running s1) :
    s1.deauth_data.pkts_sent = s.deauth_data.pkts_sent := by
  induction tl generalizing s with
  | nil =>
    simp only [ticks, Option.some.injEq] at ht
    subst ht
    rfl
  | cons e rest ih =>
    obtain ⟨now, send⟩ := e
    simp only [ticks] at ht
    cases h1 : tick send now s with
    | none => simp [h1] at ht
    | some s2 =>
      rw [h1] at ht
      simp only at ht
      have hr2 : Running s2 := ticks_running_source rest s2 s1 ht hr1
      have hc := (tick_pacing send now s s2 h1).1
      rw [ih s2 (by rw [hc.silent]; exact hs) ht, tick_silent send now s s2 hs h1 hr2]

/-- A run of ticks on a silent attack without timeout whose packet cap is above
`pkts_sent`: no tick stops the attack. -/
theorem ticks_silent_uncapped (tl : List (Nat × Transport)) (s : Sys) (hr : Running s)
    (hav : s.deauth_data.targets.available = true)
    (hs : s.deauth_data.silent = true) (ht : s.deauth_data.timeout = 0)
    (hp : s.deauth_data.pkts_sent < s.deauth_data.pkts) :
    ∃ s1, ticks tl s = some s1 ∧ Running s1 ∧
      s1.deauth_data.targets.list = s.deauth_data.targets.list ∧
      s1.deauth_data.pkts_sent = s.deauth_data.pkts_sent := by
  induction tl generalizing s with
  | nil => exact ⟨s, rfl, hr, rfl, rfl⟩
  | cons e rest ih =>
    obtain ⟨now, send⟩ := e
    have he : expired now s.deauth_data = false := by
      have : ¬ expired now s.deauth_data = true := by
        rw [expired_iff]
        omega
      simpa using this
    obtain ⟨s2, e2, c2, l2, a2⟩ := tick_continues send now s hr hav he
    have hr2 : Running s2 := by
      unfold Running TargetList.size at hr ⊢
      rw [l2]
      exact hr
    have hn2 := tick_silent send now s s2 hs e2 hr2
    obtain ⟨s1, e1, r1, l1, n1⟩ := ih s2 hr2 a2 (by rw [c2.silent]; exact hs)
      (by rw [c2.timeout]; exact ht) (by rw [hn2, c2.pkts]; exact hp)
    refine ⟨s1, ?_, r1, by rw [l1, l2], by rw [n1, hn2]⟩
    simp only [ticks, e2]
    exact e1

/-- The call `stopDeauth` transmits nothing and leaves the packet buffer alone. -/
theorem stopDeauth_keeps (s : Sys) : (stopDeauth s).air = s.air ∧ (stopDeauth s).pkt = s.pkt := by
  by_cases hr : Running s
  · exact ⟨(stopDeauth_running s hr).2.1, (stopDeauth_running s hr).2.2.1⟩
  · have hi : Idle s := by
      unfold Running at hr
      unfold Idle
      omega
    rw [stopDeauth_of_idle s hi]
    exact ⟨rfl, rfl⟩

/-- The state that a successful start leaves when the cursor was settled before:
the supplied targets with the cursor in front of the first, the arguments,
counters and send time zero; nothing was transmitted. -/
theorem startDeauth_ready (targets : TargetList) (deauth disassoc : Bool)
    (rate timeout pkts : Nat) (silent : Bool) (m1 m2 : Nat) (s : Sys) (h : CursorSettled s)
    (ht : targets.size > 0) (hm : deauth = true ∨ disassoc = true) (hr : rate > 0) :
    ∃ s0, startDeauth targets deauth disassoc rate timeout pkts silent m1 m2 s =
        some (s0, ⟨[], 0⟩) ∧
      s0.deauth_data =
        { targets := ⟨targets.list, 0⟩
          deauth := deauth
          disassoc := disassoc
          rate := rate
          timeout := timeout
          pkts := pkts
          start_time := m1
          output_time := m2
          pkts_sent := 0
          pkts_per_second := 0
          pkt_time := 0
          pkt_interval := pktInterval rate deauth disassoc
          silent := silent } ∧
      s0.air = s.air ∧ s0.pkt = s.pkt := by
  have hstop := stopDeauth_settled s h
  have hpos : (stopDeauth s).deauth_data.targets.pos = 0 :=
    hstop.1 (by simp [Idle, TargetList.size, stopDeauth_list])
  refine ⟨_, startDeauth_accepts targets deauth disassoc rate timeout pkts silent m1 m2 s
    ht hm hr, ?_, (stopDeauth_keeps s).1, (stopDeauth_keeps s).2⟩
  simp only [hpos]

/-- C19: an attack started with `silent = true` keeps `pkts_sent = 0` as long as it
runs, whatever the transport accepted; started without timeout and with a
packet cap above zero it is still running after every run of ticks, on the
same targets, and `stopDeauth` makes the controller idle. -/
theorem silent_cap_never_reached (targets : TargetList) (deauth disassoc : Bool)
    (rate timeout pkts now : Nat) (prior : Sys) (hprior : Reachable prior)
    (ht : targets.size > 0) (hm : deauth = true ∨ disassoc = true) (hr : rate > 0) :
    ∃ s0 caller,
      start targets deauth disassoc rate timeout pkts true now prior = some (s0, caller) ∧
      (∀ (tl : List (Nat × Transport)) (s1 : Sys), ticks tl s0 = some s1 → Running s1 →
        s1.deauth_data.pkts_sent = 0) ∧
      (∀ (send : Transport) (t : Nat) (tl : List (Nat × Transport)) (s1 s2 : Sys),
        ticks tl s0 = some s1 → tick send t s1 = some s2 → Running s2 →
        s2.deauth_data.pkts_sent = s1.deauth_data.pkts_sent) ∧
      (timeout = 0 → pkts > 0 →
        ∀ tl : List (Nat × Transport), ∃ s1, ticks tl s0 = some s1 ∧ Running s1 ∧
          s1.deauth_data.targets.list = targets.list ∧ s1.deauth_data.pkts_sent = 0 ∧
          Idle (stopDeauth s1)) := by
  obtain ⟨s0, e0, d0, _, _⟩ := startDeauth_ready targets deauth disassoc rate timeout pkts true
    now now prior hprior.settled ht hm hr
  have hsil : s0.deauth_data.silent = true := by rw [d0]
  have hsent : s0.deauth_data.pkts_sent = 0 := by rw [d0]
  refine ⟨s0, _, e0, ?_, ?_, ?_⟩
  · intro tl s1 h1 hr1
    rw [ticks_silent tl s0 s1 hsil h1 hr1, hsent]
  · intro send t tl s1 s2 h1 h2 hr2
    have h12 : ticks (tl ++ [(t, send)]) s0 = some s2 := by
      rw [ticks_append_one tl (t, send) s0 s1 h1]
      exact h2
    have hr1 : Running s1 := ticks_running_source [(t, send)] s1 s2 (by simp [ticks, h2]) hr2
    rw [ticks_silent _ s0 s2 hsil h12 hr2, ticks_silent tl s0 s1 hsil h1 hr1]
  · intro hto hp tl
    have hr0 : Running s0 := by
      unfold Running TargetList.size
      rw [d0]
      exact ht
    have hav : s0.deauth_data.targets.available = true := by
      unfold TargetList.size at ht
      simp [d0, TargetList.available, ht]
    obtain ⟨s1, e1, r1, l1, n1⟩ := ticks_silent_uncapped tl s0 hr0 hav hsil
      (by rw [d0]; exact hto) (by rw [d0]; exact hp)
    refine ⟨s1, e1, r1, by rw [l1, d0], by rw [n1, hsent], ?_⟩
    unfold Idle TargetList.size
    rw [stopDeauth_list]
    rfl

/-- C19, with a cap of one packet: after three ticks that each had a frame
accepted the attack still runs and `pkts_sent` is 0. -/
theorem silent_cap_never_reached_witness :
    ∃ s0 caller s1,
      start ⟨[exampleTarget], 0⟩ true false 10 0 1 true 0 Sys.init = some (s0, caller) ∧
      ticks [(100, acceptAll), (200, acceptAll), (300, acceptAll)] s0 = some s1 ∧
      Running s1 ∧ s1.deauth_data.pkts_sent = 0 ∧ Idle (stopDeauth s1) := by
  obtain ⟨s0, c, e0, _, _, h3⟩ := silent_cap_never_reached ⟨[exampleTarget], 0⟩ true false
    10 0 1 0 Sys.init Reachable.init (by decide) (Or.inl rfl) (by decide)
  obtain ⟨s1, e1, r1, _, n1, i1⟩ := h3 rfl (by decide)
    [(100, acceptAll), (200, acceptAll), (300, acceptAll)]
  exact ⟨s0, c, s1, e0, e1, r1, n1, i1⟩

/-- C20: after a successful start from a reachable state the cursor stands in
front of the first of the supplied targets, and after every run of ticks,
which is always defined, a running attack has an unvisited target under the
cursor; at the place where a tick fetches a target, after its status block,
`iterate()` therefore returns a target and the tick is defined. -/
theorem cursor_safe (targets : TargetList) (deauth disassoc : Bool)
    (rate timeout pkts : Nat) (silent : Bool) (now : Nat) (prior : Sys)
    (hprior : Reachable prior)
    (ht : targets.size > 0) (hm : deauth = true ∨ disassoc = true) (hr : rate > 0) :
    ∃ s0 caller,
      start targets deauth disassoc rate timeout pkts silent now prior = some (s0, caller) ∧
      s0.deauth_data.targets = ⟨targets.list, 0⟩ ∧
      s0.deauth_data.targets.available = true ∧
      ∀ tl : List (Nat × Transport), ∃ s1, ticks tl s0 = some s1 ∧
        (Running s1 → s1.deauth_data.targets.available = true) ∧
        ∀ (send : Transport) (t : Nat), Running s1 → expired t s1.deauth_data = false →
          (∃ x, (statusStep t t s1).deauth_data.targets.iterate.1 = some x) ∧
          ∃ s2, tick send t s1 = some s2 := by
  obtain ⟨s0, e0, d0, _, _⟩ := startDeauth_ready targets deauth disassoc rate timeout pkts silent
    now now prior hprior.settled ht hm hr
  have hav : s0.deauth_data.targets.available = true := by
    unfold TargetList.size at ht
    simp [d0, TargetList.available, ht]
  have hset0 : CursorSettled s0 :=
    startDeauth_settled targets deauth disassoc rate timeout pkts silent now now prior s0 _
      hprior.settled e0
  refine ⟨s0, _, e0, by rw [d0], hav, fun tl => ?_⟩
  obtain ⟨s1, e1⟩ := ticks_defined tl s0 hset0.2
  have hset1 := ticks_settled tl s0 s1 hset0 e1
  refine ⟨s1, e1, hset1.2, fun send t hr1 he => ⟨?_, ?_⟩⟩
  · obtain ⟨x, _, hx⟩ := iterate_available _ (hset1.2 hr1)
    exact ⟨x, by rw [(statusStep_frame t t s1).1, hx]⟩
  · obtain ⟨s2, e2, _⟩ := tick_continues send t s1 hr1 (hset1.2 hr1) he
    exact ⟨s2, e2⟩

/-- The example attack is a reachable state. -/
theorem exampleStarted_reachable : Reachable exampleStarted :=
  Reachable.start ⟨[exampleTarget], 0⟩ true false 10 0 0 false 1000 1000 Sys.init exampleStarted
    ⟨[], 0⟩ Reachable.init rfl

/-- C20, for a start with two targets on a running attack, followed by three
ticks that visit both targets and wrap around. -/
theorem cursor_safe_witness :
    ∃ s0 caller s1,
      start ⟨[exampleTarget, exampleTarget2], 0⟩ true false 10 0 0 false 2000 exampleStarted =
        some (s0, caller) ∧
      s0.deauth_data.targets = ⟨[exampleTarget, exampleTarget2], 0⟩ ∧
      ticks [(2100, acceptAll), (2200, acceptAll), (2300, acceptAll)] s0 = some s1 ∧
      (Running s1 → s1.deauth_data.targets.available = true) := by
  obtain ⟨s0, c, e0, t0, _, h3⟩ := cursor_safe ⟨[exampleTarget, exampleTarget2], 0⟩ true false
    10 0 0 false 2000 exampleStarted exampleStarted_reachable (by decide) (Or.inl rfl) (by decide)
  obtain ⟨s1, e1, a1, _⟩ := h3 [(2100, acceptAll), (2200, acceptAll), (2300, acceptAll)]
  exact ⟨s0, c, s1, e0, t0, e1, a1⟩

/-! ## One visit of a target -/

/-- The send block, once the interval has elapsed and with a target under the
cursor, computes the closed form `visitState`. -/
theorem sendStep_visit (send : Transport) (m4 m5 : Nat) (x : Target) (s : Sys)
    (hm : s.deauth_data.deauth = true ∨ s.deauth_data.disassoc = true)
    (hf : s.deauth_data.pkt_interval ≤ usub m4 s.deauth_data.pkt_time)
    (hx : s.deauth_data.targets.list.get? s.deauth_data.targets.pos = some x) :
    sendStep send m4 m5 s = some (visitState send m5 x s) := by
  have hit : s.deauth_data.targets.iterate =
      (some x, ⟨s.deauth_data.targets.list, s.deauth_data.targets.pos + 1⟩) := by
    unfold TargetList.iterate
    rw [hx]
  unfold sendStep
  simp only [ge_iff_le, hf, if_true, hit]
  cases hd : s.deauth_data.deauth <;> cases ha : s.deauth_data.disassoc
  · simp [hd, ha] at hm
  · simp [deauthLine, disassocLine, send_disassoc, visitState, visitCalls, visitPkt,
      acceptedCalls, hd, ha, uadd, wrapAdd, ULONG_BITS, List.filter_cons]
    cases send x.getCh (fill_addresses (s.pkt.set 0 160) x.getFrom x.getTo) sizeof_deauth_pkt <;>
      simp
  · simp [deauthLine, disassocLine, send_deauth, visitState, visitCalls, visitPkt,
      acceptedCalls, hd, ha, uadd, wrapAdd, ULONG_BITS, List.filter_cons]
    cases send x.getCh (fill_addresses (s.pkt.set 0 192) x.getFrom x.getTo) sizeof_deauth_pkt <;>
      simp
  · simp [deauthLine, disassocLine, send_deauth, send_disassoc, visitState, visitCalls, visitPkt,
      acceptedCalls, hd, ha, uadd, wrapAdd, ULONG_BITS, List.filter_cons]
    cases send x.getCh (fill_addresses (s.pkt.set 0 192) x.getFrom x.getTo) sizeof_deauth_pkt <;>
      cases send x.getCh
        (fill_addresses ((fill_addresses (s.pkt.set 0 192) x.getFrom x.getTo).set 0 160)
          x.getFrom x.getTo) sizeof_deauth_pkt <;>
      simp

/-- A defined send block that fires with a mode enabled had a target under the
cursor. -/
theorem sendStep_target (send : Transport) (m4 m5 : Nat) (s s1 : Sys)
    (hm : s.deauth_data.deauth = true ∨ s.deauth_data.disassoc = true)
    (hf : s.deauth_data.pkt_interval ≤ usub m4 s.deauth_data.pkt_time)
    (h : sendStep send m4 m5 s = some s1) :
    ∃ x, s.deauth_data.targets.list.get? s.deauth_data.targets.pos = some x := by
  cases hx : s.deauth_data.targets.list.get? s.deauth_data.targets.pos with
  | some x => exact ⟨x, rfl⟩
  | none =>
    exfalso
    have hit : s.deauth_data.targets.iterate = (none, s.deauth_data.targets) := by
      unfold TargetList.iterate
      rw [hx]
    unfold sendStep at h
    simp only [ge_iff_le, hf, if_true, hit] at h
    cases hd : s.deauth_data.deauth <;> cases ha : s.deauth_data.disassoc <;>
      simp [deauthLine, disassocLine, hd, ha] at h hm

/-- The four ways of a defined tick on an attack with a mode enabled: the
controller is idle; a limit is passed and the attack stops; the interval has
not elapsed; a target is visited. -/
theorem tick_cases (send : Transport) (now : Nat) (s s1 : Sys)
    (hm : s.deauth_data.deauth = true ∨ s.deauth_data.disassoc = true)
    (ht : tick send now s = some s1) :
    (Idle s ∧ s1 = s) ∨
    (Running s ∧ expired now s.deauth_data = true ∧ s1 = stopDeauth s) ∨
    (Running s ∧ expired now s.deauth_data = false ∧
      usub now s.deauth_data.pkt_time < s.deauth_data.pkt_interval ∧
      s1 = wrapStep (statusStep now now s)) ∨
    (Running s ∧ expired now s.deauth_data = false ∧
      s.deauth_data.pkt_interval ≤ usub now s.deauth_data.pkt_time ∧
      ∃ x, s.deauth_data.targets.list.get? s.deauth_data.targets.pos = some x ∧
        s1 = wrapStep (visitState send now x (statusStep now now s))) := by
  by_cases hr : Running s
  · by_cases he : expired now s.deauth_data = true
    · rw [tick_expired send now s hr he] at ht
      simp only [Option.some.injEq] at ht
      exact Or.inr (Or.inl ⟨hr, he, ht.symm⟩)
    · have he0 : expired now s.deauth_data = false := by simpa using he
      rw [tick_live send now s hr he0] at ht
      have hst := statusStep_frame now now s
      have cst := statusStep_sameConfig now now s
      have hm1 : (statusStep now now s).deauth_data.deauth = true ∨
          (statusStep now now s).deauth_data.disassoc = true := by
        rw [cst.deauth, cst.disassoc]
        exact hm
      by_cases hf : s.deauth_data.pkt_interval ≤ usub now s.deauth_data.pkt_time
      · have hf1 : (statusStep now now s).deauth_data.pkt_interval ≤
            usub now (statusStep now now s).deauth_data.pkt_time := by
          rw [cst.pkt_interval, hst.2.1]
          exact hf
        cases h2 : sendStep send now now (statusStep now now s) with
        | none => simp [h2] at ht
        | some s2 =>
          obtain ⟨x, hx⟩ := sendStep_target send now now _ s2 hm1 hf1 h2
          rw [sendStep_visit send now now x _ hm1 hf1 hx] at ht
          simp only [Option.map_some', Option.some.injEq] at ht
          rw [hst.1] at hx
          exact Or.inr (Or.inr (Or.inr ⟨hr, he0, hf, x, hx, ht.symm⟩))
      · have hf1 : usub now (statusStep now now s).deauth_data.pkt_time <
            (statusStep now now s).deauth_data.pkt_interval := by
          rw [cst.pkt_interval, hst.2.1]
          omega
        rw [sendStep_wait send now now _ hf1] at ht
        simp only [Option.map_some', Option.some.injEq] at ht
        exact Or.inr (Or.inr (Or.inl ⟨hr, he0, by omega, ht.symm⟩))
  · have hi : Idle s := by
      unfold Running at hr
      unfold Idle
      omega
    rw [tick_idle send now s hi] at ht
    simp only [Option.some.injEq] at ht
    exact Or.inl ⟨hi, ht.symm⟩

/-- The frames of a visit, byte for byte, when the buffer has 26 bytes and the
addresses of the target have 6: the header byte `0xC0`, then `0xA0`, each
followed by bytes 1-3 of the buffer, the receiver address, the transmitter
address twice, and bytes 22-25 of the buffer. -/
theorem visitCalls_frames (deauth disassoc : Bool) (x : Target) (pkt : List Nat)
    (hp : pkt.length = 26) (hfrom : x.getFrom.length = 6) (hto : x.getTo.length = 6) :
    visitCalls deauth disassoc x pkt =
      (if deauth then
          [⟨x.getCh, 0xC0 :: ((pkt.drop 1).take 3 ++ x.getTo ++ x.getFrom ++ x.getFrom ++
            pkt.drop 22), 26⟩]
        else []) ++
      (if disassoc then
          [⟨x.getCh, 0xA0 :: ((pkt.drop 1).take 3 ++ x.getTo ++ x.getFrom ++ x.getFrom ++
            pkt.drop 22), 26⟩]
        else []) ∧
    (visitPkt deauth disassoc x pkt).length = 26 ∧
    (visitPkt deauth disassoc x pkt).drop 22 = pkt.drop 22 ∧
    ((visitPkt deauth disassoc x pkt).drop 1).take 3 = (pkt.drop 1).take 3 := by
  obtain ⟨h0, h1, h2, h3, ra, ta, bs, t0, t1, t2, t3, hra, hta, hbs, rfl⟩ :=
    list_length_frame pkt hp
  have hsize : sizeof_deauth_pkt = 26 := rfl
  have f1 := fill_addresses_frame 0xc0 h0 h1 h2 h3 ra ta bs t0 t1 t2 t3 x.getFrom x.getTo
    hra hta hbs hfrom hto
  have f2 := fill_addresses_frame 0xa0 h0 h1 h2 h3 ra ta bs t0 t1 t2 t3 x.getFrom x.getTo
    hra hta hbs hfrom hto
  have f3 := fill_addresses_frame 0xa0 0xc0 h1 h2 h3 x.getTo x.getFrom x.getFrom t0 t1 t2 t3
    x.getFrom x.getTo hto hfrom hfrom hfrom hto
  have hhead : (([h0, h1, h2, h3] ++ ra ++ ta ++ bs ++ [t0, t1, t2, t3]).drop 1).take 3 =
      [h1, h2, h3] := by simp
  have htail : ([h0, h1, h2, h3] ++ ra ++ ta ++ bs ++ [t0, t1, t2, t3]).drop 22 =
      [t0, t1, t2, t3] := by
    obtain ⟨a0, a1, a2, a3, a4, a5, rfl⟩ := list_length_six ra hra
    obtain ⟨b0, b1, b2, b3, b4, b5, rfl⟩ := list_length_six ta hta
    obtain ⟨c0, c1, c2, c3, c4, c5, rfl⟩ := list_length_six bs hbs
    rfl
  have hshape : ∀ y : Nat,
      ([y, h1, h2, h3] ++ x.getTo ++ x.getFrom ++ x.getFrom ++ [t0, t1, t2, t3]).length = 26 ∧
      ([y, h1, h2, h3] ++ x.getTo ++ x.getFrom ++ x.getFrom ++ [t0, t1, t2, t3]).drop 22 =
        [t0, t1, t2, t3] ∧
      (([y, h1, h2, h3] ++ x.getTo ++ x.getFrom ++ x.getFrom ++ [t0, t1, t2, t3]).drop 1).take 3 =
        [h1, h2, h3] ∧
      [y, h1, h2, h3] ++ x.getTo ++ x.getFrom ++ x.getFrom ++ [t0, t1, t2, t3] =
        y :: ([h1, h2, h3] ++ x.getTo ++ x.getFrom ++ x.getFrom ++ [t0, t1, t2, t3]) := by
    intro y
    obtain ⟨d0, d1, d2, d3, d4, d5, hd⟩ := list_length_six x.getFrom hfrom
    obtain ⟨e0, e1, e2, e3, e4, e5, he⟩ := list_length_six x.getTo hto
    rw [hd, he]
    exact ⟨rfl, rfl, rfl, rfl⟩
  rw [hhead, htail]
  unfold visitCalls visitPkt
  cases deauth <;> cases disassoc
  · simp only [Bool.false_eq_true, if_false, List.append_nil]
    exact ⟨trivial, hp, htail, hhead⟩
  · simp only [Bool.false_eq_true, if_false, if_true, f2, hsize, List.nil_append]
    exact ⟨by rw [(hshape 0xa0).2.2.2], (hshape 0xa0).1, (hshape 0xa0).2.1, (hshape 0xa0).2.2.1⟩
  · simp only [Bool.false_eq_true, if_false, if_true, f1, hsize, List.append_nil]
    exact ⟨by rw [(hshape 0xc0).2.2.2], (hshape 0xc0).1, (hshape 0xc0).2.1, (hshape 0xc0).2.2.1⟩
  · simp only [if_true, f1, f3, hsize]
    exact ⟨by rw [(hshape 0xc0).2.2.2, (hshape 0xa0).2.2.2], (hshape 0xa0).1, (hshape 0xa0).2.1,
      (hshape 0xa0).2.2.1⟩

/-- The cursor after the wrap-around line. -/
theorem wrapStep_targets (s : Sys) :
    (wrapStep s).deauth_data.targets =
      ⟨s.deauth_data.targets.list,
        if s.deauth_data.targets.pos < s.deauth_data.targets.list.length then
          s.deauth_data.targets.pos
        else 0⟩ := by
  rcases wrapStep_cases s with ⟨h1, hav⟩ | ⟨h1, hav⟩ <;> rw [h1]
  · have hlt : s.deauth_data.targets.pos < s.deauth_data.targets.list.length := by
      simpa [TargetList.available] using hav
    simp [hlt]
  · have hlt : ¬ s.deauth_data.targets.pos < s.deauth_data.targets.list.length := by
      simpa [TargetList.available] using hav
    simp [hlt, TargetList.begin]

/-- The state after a tick that visits the target `x`. -/
theorem tick_visit_fields (send : Transport) (now : Nat) (x : Target) (s : Sys) :
    (wrapStep (visitState send now x (statusStep now now s))).air =
        s.air ++ visitCalls s.deauth_data.deauth s.deauth_data.disassoc x s.pkt ∧
      (wrapStep (visitState send now x (statusStep now now s))).pkt =
        visitPkt s.deauth_data.deauth s.deauth_data.disassoc x s.pkt ∧
      (wrapStep (visitState send now x (statusStep now now s))).deauth_data.pkt_time = now ∧
      (wrapStep (visitState send now x (statusStep now now s))).deauth_data.targets =
        ⟨s.deauth_data.targets.list,
          if s.deauth_data.targets.pos + 1 < s.deauth_data.targets.list.length then
            s.deauth_data.targets.pos + 1
          else 0⟩ ∧
      (wrapStep (visitState send now x (statusStep now now s))).deauth_data.pkts_per_second =
        ((statusStep now now s).deauth_data.pkts_per_second +
          acceptedCalls send
            (visitCalls s.deauth_data.deauth s.deauth_data.disassoc x s.pkt)) % 2 ^ 32 ∧
      (wrapStep (visitState send now x (statusStep now now s))).deauth_data.pkts_sent =
        (statusStep now now s).deauth_data.pkts_sent ∧
      (wrapStep (visitState send now x (statusStep now now s))).sink =
        (statusStep now now s).sink := by
  have hw := wrapStep_frame (visitState send now x (statusStep now now s))
  have hst := statusStep_frame now now s
  have cst := statusStep_sameConfig now now s
  refine ⟨?_, ?_, ?_, ?_, ?_, ?_, ?_⟩
  · rw [hw.2.2.2.2.2.2.1]
    simp only [visitState, hst.2.2.1, hst.2.2.2, cst.deauth, cst.disassoc]
  · rw [hw.2.2.2.2.2.2.2.1]
    simp only [visitState, hst.2.2.2, cst.deauth, cst.disassoc]
  · rw [hw.2.2.1]
    rfl
  · rw [wrapStep_targets]
    simp only [visitState, hst.1]
  · rw [hw.2.2.2.2.1]
    simp only [visitState, hst.2.2.2, cst.deauth, cst.disassoc]
  · rw [hw.2.2.2.1]
    rfl
  · rw [hw.2.2.2.2.2.2.2.2]
    rfl

/-- A visit makes one call per enabled mode, each on the channel of the target
and with length 26. -/
theorem visitCalls_shape (deauth disassoc : Bool) (x : Target) (pkt : List Nat) :
    (visitCalls deauth disassoc x pkt).length = deauth.toNat + disassoc.toNat ∧
      ∀ c ∈ visitCalls deauth disassoc x pkt, c.ch = x.getCh ∧ c.len = 26 := by
  have hsize : sizeof_deauth_pkt = 26 := rfl
  unfold visitCalls
  cases deauth <;> cases disassoc <;> simp [hsize]

/-- A defined run of ticks never takes a frame back, and it leaves the
configuration. -/
theorem ticks_air_mono (tl : List (Nat × Transport)) (s s1 : Sys) (h : ticks tl s = some s1) :
    SameConfig s s1 ∧ s.air.length ≤ s1.air.length := by
  induction tl generalizing s with
  | nil =>
    simp only [ticks, Option.some.injEq] at h
    subst h
    exact ⟨SameConfig.refl s, le_refl _⟩
  | cons e rest ih =>
    obtain ⟨now, send⟩ := e
    simp only [ticks] at h
    cases h1 : tick send now s with
    | none => simp [h1] at h
    | some s2 =>
      rw [h1] at h
      obtain ⟨c1, hc⟩ := tick_pacing send now s s2 h1
      obtain ⟨c2, hl⟩ := ih s2 h
      refine ⟨c1.trans c2, ?_⟩
      rcases hc with ⟨_, ha⟩ | ⟨_, _, ha⟩ <;> omega

/-- A defined run of ticks that transmits nothing leaves the send time, when a
mode is enabled. -/
theorem ticks_quiet (tl : List (Nat × Transport)) (s s1 : Sys)
    (hm : s.deauth_data.deauth = true ∨ s.deauth_data.disassoc = true)
    (h : ticks tl s = some s1) (hq : s1.air.length = s.air.length) :
    s1.deauth_data.pkt_time = s.deauth_data.pkt_time := by
  induction tl generalizing s with
  | nil =>
    simp only [ticks, Option.some.injEq] at h
    subst h
    rfl
  | cons e rest ih =>
    obtain ⟨now, send⟩ := e
    simp only [ticks] at h
    cases h1 : tick send now s with
    | none => simp [h1] at h
    | some s2 =>
      rw [h1] at h
      obtain ⟨c1, hc⟩ := tick_pacing send now s s2 h1
      have hl := (ticks_air_mono rest s2 s1 h).2
      have hk : 1 ≤ s.deauth_data.deauth.toNat + s.deauth_data.disassoc.toNat := by
        rcases hm with h | h <;> simp [h]
      rcases hc with ⟨hp, ha⟩ | ⟨_, _, ha⟩
      · rw [ih s2 (by rw [c1.deauth, c1.disassoc]; exact hm) h (by omega), hp]
      · omega

/-- C16: a tick on an attack with a mode enabled that transmits anything found
the attack running and the unsigned difference `now - pkt_time` at least
`pkt_interval`; it took the target under the cursor and made one call per
enabled mode, deauthentication before disassociation, every call on the channel
of that target and carrying its addresses, and it set `pkt_time` to `now`. The
next tick that transmits, after any number of ticks that do not, therefore has
a clock value whose unsigned difference to `now` is at least `pkt_interval`. -/
theorem send_pacing (send : Transport) (now : Nat) (s s1 : Sys)
    (hm : s.deauth_data.deauth = true ∨ s.deauth_data.disassoc = true)
    (ht : tick send now s = some s1) (htx : s1.air ≠ s.air) :
    Running s ∧
    s.deauth_data.pkt_interval ≤ usub now s.deauth_data.pkt_time ∧
    (∃ x, s.deauth_data.targets.list.get? s.deauth_data.targets.pos = some x ∧
      s1.air = s.air ++ visitCalls s.deauth_data.deauth s.deauth_data.disassoc x s.pkt ∧
      (visitCalls s.deauth_data.deauth s.deauth_data.disassoc x s.pkt).length =
        s.deauth_data.deauth.toNat + s.deauth_data.disassoc.toNat ∧
      (∀ c ∈ visitCalls s.deauth_data.deauth s.deauth_data.disassoc x s.pkt,
        c.ch = x.getCh ∧ c.len = 26) ∧
      (s.pkt.length = 26 → x.getFrom.length = 6 → x.getTo.length = 6 →
        visitCalls s.deauth_data.deauth s.deauth_data.disassoc x s.pkt =
          (if s.deauth_data.deauth then
              [⟨x.getCh, 0xC0 :: ((s.pkt.drop 1).take 3 ++ x.getTo ++ x.getFrom ++ x.getFrom ++
                s.pkt.drop 22), 26⟩]
            else []) ++
          (if s.deauth_data.disassoc then
              [⟨x.getCh, 0xA0 :: ((s.pkt.drop 1).take 3 ++ x.getTo ++ x.getFrom ++ x.getFrom ++
                s.pkt.drop 22), 26⟩]
            else []))) ∧
    s1.deauth_data.pkt_time = now ∧
    (∀ (mid : List (Nat × Transport)) (s2 s3 : Sys) (send2 : Transport) (now2 : Nat),
      ticks mid s1 = some s2 → s2.air = s1.air → tick send2 now2 s2 = some s3 →
      s3.air ≠ s2.air → s.deauth_data.pkt_interval ≤ usub now2 now) := by
  have hquiet : ∀ (a b : Sys) (t : Nat) (tr : Transport),
      (a.deauth_data.deauth = true ∨ a.deauth_data.disassoc = true) →
      tick tr t a = some b → b.air ≠ a.air →
      Running a ∧ a.deauth_data.pkt_interval ≤ usub t a.deauth_data.pkt_time ∧
        ∃ x, a.deauth_data.targets.list.get? a.deauth_data.targets.pos = some x ∧
          b = wrapStep (visitState tr t x (statusStep t t a)) := by
    intro a b t tr hma hab hne
    rcases tick_cases tr t a b hma hab with ⟨_, h⟩ | ⟨_, _, h⟩ | ⟨_, _, _, h⟩ | ⟨hr, _, hf, x, hx, h⟩
    · exact absurd (by rw [h]) hne
    · exact absurd (by rw [h, (stopDeauth_keeps a).1]) hne
    · exact absurd (by rw [h, (wrapStep_frame _).2.2.2.2.2.2.1, (statusStep_frame t t a).2.2.1]) hne
    · exact ⟨hr, hf, x, hx, h⟩
  obtain ⟨hr, hf, x, hx, h1⟩ := hquiet s s1 now send hm ht htx
  have hv := tick_visit_fields send now x s
  rw [← h1] at hv
  have hshape := visitCalls_shape s.deauth_data.deauth s.deauth_data.disassoc x s.pkt
  refine ⟨hr, hf, ⟨x, hx, hv.1, hshape.1, hshape.2, fun hp hfrom hto => ?_⟩, hv.2.2.1, ?_⟩
  · exact (visitCalls_frames s.deauth_data.deauth s.deauth_data.disassoc x s.pkt hp hfrom hto).1
  · intro mid s2 s3 send2 now2 hmid hair h23 hne
    have c1 := (tick_pacing send now s s1 ht).1
    have hm1 : s1.deauth_data.deauth = true ∨ s1.deauth_data.disassoc = true := by
      rw [c1.deauth, c1.disassoc]
      exact hm
    obtain ⟨c2, _⟩ := ticks_air_mono mid s1 s2 hmid
    have hm2 : s2.deauth_data.deauth = true ∨ s2.deauth_data.disassoc = true := by
      rw [c2.deauth, c2.disassoc]
      exact hm1
    have hp2 := ticks_quiet mid s1 s2 hm1 hmid (by rw [hair])
    obtain ⟨_, hf2, _⟩ := hquiet s2 s3 now2 send2 hm2 h23 hne
    rw [hp2, hv.2.2.1, c2.pkt_interval, c1.pkt_interval] at hf2
    exact hf2

/-- C16, on the example attack (interval 100 ms): the tick at 1000 ms transmits
one deauthentication frame on channel 6 and sets the send time to 1000; the
ticks at 1050 and 1099 ms transmit nothing and the tick at 1100 ms transmits
again. -/
theorem send_pacing_witness :
    exampleStarted.deauth_data.pkt_interval ≤ usub 1000 exampleStarted.deauth_data.pkt_time ∧
    (wrapStep (visitState acceptAll 1000 exampleTarget
        (statusStep 1000 1000 exampleStarted))).air =
      [⟨6, [0xC0, 0x00, 0x00, 0x00, 0xBB, 0xBB, 0xBB, 0xBB, 0xBB, 0xBB,
            0xAA, 0xAA, 0xAA, 0xAA, 0xAA, 0xAA, 0xAA, 0xAA, 0xAA, 0xAA, 0xAA, 0xAA,
            0x00, 0x00, 0x01, 0x00], 26⟩] ∧
    (wrapStep (visitState acceptAll 1000 exampleTarget
        (statusStep 1000 1000 exampleStarted))).deauth_data.pkt_time = 1000 ∧
    exampleStarted.deauth_data.pkt_interval ≤ usub 1100 1000 := by
  have h := send_pacing acceptAll 1000 exampleStarted
    (wrapStep (visitState acceptAll 1000 exampleTarget (statusStep 1000 1000 exampleStarted)))
    (Or.inl rfl) (by decide) (by decide)
  obtain ⟨_, h1, ⟨x, hx, hair, _, _, hfr⟩, h3, h4⟩ := h
  have hx' : x = exampleTarget := by
    have : exampleStarted.deauth_data.targets.list.get? exampleStarted.deauth_data.targets.pos =
        some exampleTarget := rfl
    rw [this] at hx
    exact (Option.some.inj hx).symm
  subst hx'
  refine ⟨h1, ?_, h3, ?_⟩
  · rw [hair, hfr rfl rfl rfl]
    rfl
  · exact h4 [(1050, acceptAll), (1099, refuseAll)] _ _ acceptAll 1100
      (by decide : ticks [(1050, acceptAll), (1099, refuseAll)] _ =
        some (wrapStep (visitState acceptAll 1000 exampleTarget
          (statusStep 1000 1000 exampleStarted))))
      rfl
      (by decide : tick acceptAll 1100 _ =
        some (wrapStep (visitState acceptAll 1100 exampleTarget
          (statusStep 1100 1100 (wrapStep (visitState acceptAll 1000 exampleTarget
            (statusStep 1000 1000 exampleStarted)))))))
      (by decide)

/-! ## Counting accepted frames -/

/-- The status block moves the window into the total: the sum of the two
counters stays, modulo `2 ^ 32`. -/
theorem statusStep_sum (m2 m3 : Nat) (s : Sys) :
    ((statusStep m2 m3 s).deauth_data.pkts_sent +
        (statusStep m2 m3 s).deauth_data.pkts_per_second) % 2 ^ 32 =
      (s.deauth_data.pkts_sent + s.deauth_data.pkts_per_second) % 2 ^ 32 := by
  rcases statusStep_cases m2 m3 s with ⟨h, _⟩ | ⟨h, _⟩ <;> rw [h]
  simp [uadd, wrapAdd, ULONG_BITS]

/-- The window after the status block: as it was, or zero when the status line
was written. -/
theorem statusStep_window (m2 m3 : Nat) (s : Sys) :
    ((statusStep m2 m3 s).deauth_data.pkts_per_second = s.deauth_data.pkts_per_second ∧
        (statusStep m2 m3 s).deauth_data.pkts_sent = s.deauth_data.pkts_sent ∧
        (s.deauth_data.silent = true ∨ usub m2 s.deauth_data.output_time < 1000)) ∨
      ((statusStep m2 m3 s).deauth_data.pkts_per_second = 0 ∧
        (statusStep m2 m3 s).deauth_data.pkts_sent =
          uadd s.deauth_data.pkts_sent s.deauth_data.pkts_per_second ∧
        s.deauth_data.silent = false ∧ 1000 ≤ usub m2 s.deauth_data.output_time) := by
  rcases statusStep_cases m2 m3 s with ⟨h, hc⟩ | ⟨h, hc⟩ <;> rw [h]
  · exact Or.inl ⟨rfl, rfl, hc⟩
  · exact Or.inr ⟨rfl, rfl, hc⟩

/-- A tick that visits a target adds the accepted calls to the sum of the two
counters, modulo `2 ^ 32`. -/
theorem tick_visit_sum (send : Transport) (now : Nat) (x : Target) (s : Sys) :
    ((wrapStep (visitState send now x (statusStep now now s))).deauth_data.pkts_sent +
        (wrapStep (visitState send now x (statusStep now now s))).deauth_data.pkts_per_second) %
        2 ^ 32 =
      (s.deauth_data.pkts_sent + s.deauth_data.pkts_per_second +
        acceptedCalls send
          (visitCalls s.deauth_data.deauth s.deauth_data.disassoc x s.pkt)) % 2 ^ 32 := by
  have hv := tick_visit_fields send now x s
  have hs := statusStep_sum now now s
  rw [hv.2.2.2.2.1, hv.2.2.2.2.2.1]
  omega

/-- A tick that waits leaves the sum of the two counters, modulo `2 ^ 32`. -/
theorem tick_wait_sum (now : Nat) (s : Sys) :
    ((wrapStep (statusStep now now s)).deauth_data.pkts_sent +
        (wrapStep (statusStep now now s)).deauth_data.pkts_per_second) % 2 ^ 32 =
      (s.deauth_data.pkts_sent + s.deauth_data.pkts_per_second) % 2 ^ 32 := by
  have hw := wrapStep_frame (statusStep now now s)
  rw [hw.2.2.2.1, hw.2.2.2.2.1]
  exact statusStep_sum now now s

/-- Of the calls of one visit at most two are accepted. -/
theorem acceptedCalls_le (send : Transport) (calls : List SendCall) :
    acceptedCalls send calls ≤ calls.length :=
  List.length_filter_le _ _

/-- C14, refuted as stated: on the attack that `start` leaves (one target,
deauthentication only, 10 packets per second, started at 1000 ms) the ticks at
1000 and 1100 ms have their frames accepted and the window stands at 2; the
tick at 2000 ms has its one frame accepted as well, and the window stands at 1,
because the status block of that tick has moved the 2 into the total. -/
theorem window_not_increased_by_accepted :
    ((start ⟨[exampleTarget], 0⟩ true false 10 0 0 false 1000 Sys.init).bind
        (fun r => ticks [(1000, acceptAll), (1100, acceptAll)] r.1)).map
      (fun s => (s.deauth_data.pkts_per_second, s.deauth_data.pkts_sent, s.air.length)) =
        some (2, 0, 2) ∧
    ((start ⟨[exampleTarget], 0⟩ true false 10 0 0 false 1000 Sys.init).bind
        (fun r => ticks [(1000, acceptAll), (1100, acceptAll), (2000, acceptAll)] r.1)).map
      (fun s => (s.deauth_data.pkts_per_second, s.deauth_data.pkts_sent, s.air.length)) =
        some (1, 2, 3) := by
  decide

/-- C14, amended: in a tick on a running attack whose send step fires, the window
`pkts_per_second` after the tick is its value after the status block of that
tick (the old value, or 0 when the status line was written and the old value
went into `pkts_sent`) plus the number of calls of that tick that the transport
accepted, modulo `2 ^ 32`; the sum `pkts_sent + pkts_per_second` grows by exactly
that number, modulo `2 ^ 32`; the tick makes one call per enabled mode, and for
every transport the attack is still running on the same targets. -/
theorem accepted_frames_counted (send : Transport) (now : Nat) (s : Sys) (hr : Running s)
    (hav : s.deauth_data.targets.available = true)
    (hm : s.deauth_data.deauth = true ∨ s.deauth_data.disassoc = true)
    (he : expired now s.deauth_data = false)
    (hf : s.deauth_data.pkt_interval ≤ usub now s.deauth_data.pkt_time) :
    ∃ s1 calls,
      tick send now s = some s1 ∧ s1.air = s.air ++ calls ∧
      calls.length = s.deauth_data.deauth.toNat + s.deauth_data.disassoc.toNat ∧
      acceptedCalls send calls ≤ 2 ∧
      s1.deauth_data.pkts_per_second =
        ((statusStep now now s).deauth_data.pkts_per_second + acceptedCalls send calls) %
          2 ^ 32 ∧
      (((statusStep now now s).deauth_data.pkts_per_second = s.deauth_data.pkts_per_second ∧
          (s.deauth_data.silent = true ∨ usub now s.deauth_data.output_time < 1000)) ∨
        ((statusStep now now s).deauth_data.pkts_per_second = 0 ∧
          s.deauth_data.silent = false ∧ 1000 ≤ usub now s.deauth_data.output_time)) ∧
      (s1.deauth_data.pkts_sent + s1.deauth_data.pkts_per_second) % 2 ^ 32 =
        (s.deauth_data.pkts_sent + s.deauth_data.pkts_per_second +
          acceptedCalls send calls) % 2 ^ 32 ∧
      Running s1 ∧ s1.deauth_data.targets.list = s.deauth_data.targets.list := by
  obtain ⟨s1, e1, _, l1, _⟩ := tick_continues send now s hr hav he
  have hr1 : Running s1 := by
    unfold Running TargetList.size at hr ⊢
    rw [l1]
    exact hr
  rcases tick_cases send now s s1 hm e1 with ⟨hi, _⟩ | ⟨_, he1, _⟩ | ⟨_, _, hw, _⟩ |
    ⟨_, _, _, x, hx, h1⟩
  · unfold Idle at hi
    unfold Running at hr
    omega
  · rw [he] at he1
    exact absurd he1 (by decide)
  · omega
  · have hv := tick_visit_fields send now x s
    have hsum := tick_visit_sum send now x s
    rw [← h1] at hv hsum
    have hshape := visitCalls_shape s.deauth_data.deauth s.deauth_data.disassoc x s.pkt
    have hle := acceptedCalls_le send
      (visitCalls s.deauth_data.deauth s.deauth_data.disassoc x s.pkt)
    have hk : s.deauth_data.deauth.toNat + s.deauth_data.disassoc.toNat ≤ 2 := by
      cases s.deauth_data.deauth <;> cases s.deauth_data.disassoc <;> simp
    refine ⟨s1, _, e1, hv.1, hshape.1, by omega, hv.2.2.2.2.1, ?_, hsum, hr1, l1⟩
    rcases statusStep_window now now s with ⟨h, _, hc⟩ | ⟨h, _, hc⟩
    · exact Or.inl ⟨h, hc⟩
    · exact Or.inr ⟨h, hc⟩

/-- C14 as amended, on the example attack with both modes: the transport refuses
every frame, two calls are made, the window stays at 3 and the attack runs. -/
theorem accepted_frames_counted_witness :
    ∃ s1 calls,
      tick refuseAll 1500
        { exampleStarted with
          deauth_data :=
            { exampleStarted.deauth_data with disassoc := true, pkts_per_second := 3 } } =
          some s1 ∧
      s1.air = calls ∧ calls.length = 2 ∧ acceptedCalls refuseAll calls = 0 ∧
      s1.deauth_data.pkts_per_second = 3 ∧ Running s1 := by
  obtain ⟨s1, calls, e1, a1, l1, _, p1, _, _, r1, _⟩ := accepted_frames_counted refuseAll 1500
    { exampleStarted with
      deauth_data := { exampleStarted.deauth_data with disassoc := true, pkts_per_second := 3 } }
    (by decide) (by decide) (Or.inl rfl) (by decide) (by decide)
  have h0 : acceptedCalls refuseAll calls = 0 := by
    simp [acceptedCalls, refuseAll]
  refine ⟨s1, calls, e1, by simpa using a1, l1, h0, ?_, r1⟩
  rw [p1, h0]
  rfl

/-- An idle controller has no calls accepted, whatever the run. -/
theorem accepted_idle (tl : List (Nat × Transport)) (s : Sys) (h : Idle s) :
    accepted tl s = 0 := by
  induction tl with
  | nil => rfl
  | cons e rest ih =>
    obtain ⟨now, send⟩ := e
    simp only [accepted, tick_idle send now s h, List.drop_length, ih]
    rfl

/-- The accounting along a run of ticks: while the attack runs the two counters
add up to the accepted calls, and once it has stopped `pkts_sent` holds them
and the report at the end of the output sink shows them. -/
theorem ticks_accounting (tl : List (Nat × Transport)) (s : Sys) (n : Nat) (hr : Running s)
    (hav : s.deauth_data.targets.available = true)
    (hm : s.deauth_data.deauth = true ∨ s.deauth_data.disassoc = true)
    (hn : (s.deauth_data.pkts_sent + s.deauth_data.pkts_per_second) % 2 ^ 32 = n % 2 ^ 32) :
    ∃ s1, ticks tl s = some s1 ∧
      (Running s1 →
        (s1.deauth_data.pkts_sent + s1.deauth_data.pkts_per_second) % 2 ^ 32 =
          (n + accepted tl s) % 2 ^ 32) ∧
      (Idle s1 →
        s1.deauth_data.pkts_sent = (n + accepted tl s) % 2 ^ 32 ∧
        ∃ pre, s1.sink = pre ++ stopReport ((n + accepted tl s) % 2 ^ 32)) := by
  induction tl generalizing s n with
  | nil =>
    refine ⟨s, rfl, fun _ => ?_, fun hi => ?_⟩
    · simpa [accepted] using hn
    · unfold Idle at hi
      unfold Running at hr
      omega
  | cons e rest ih =>
    obtain ⟨now, send⟩ := e
    by_cases he : expired now s.deauth_data = true
    · have e1 := tick_expired send now s hr he
      have hstop := stopDeauth_of_running s hr
      have hi1 : Idle (stopDeauth s) := by
        rw [hstop]
        rfl
      have hacc : accepted ((now, send) :: rest) s = 0 := by
        simp only [accepted, e1, (stopDeauth_keeps s).1, List.drop_length,
          accepted_idle rest _ hi1]
        rfl
      refine ⟨stopDeauth s, ?_, fun hr1 => ?_, fun _ => ?_⟩
      · simp only [ticks, e1]
        exact ticks_idle rest _ hi1
      · unfold Idle at hi1
        unfold Running at hr1
        omega
      · rw [hacc, Nat.add_zero, ← hn]
        refine ⟨?_, s.sink, ?_⟩
        · rw [hstop]
          rfl
        · rw [hstop]
          rfl
    · have he0 : expired now s.deauth_data = false := by simpa using he
      obtain ⟨s2, e2, c2, l2, a2⟩ := tick_continues send now s hr hav he0
      have hr2 : Running s2 := by
        unfold Running TargetList.size at hr ⊢
        rw [l2]
        exact hr
      have hm2 : s2.deauth_data.deauth = true ∨ s2.deauth_data.disassoc = true := by
        rw [c2.deauth, c2.disassoc]
        exact hm
      have hstep : (s2.deauth_data.pkts_sent + s2.deauth_data.pkts_per_second) % 2 ^ 32 =
          (n + acceptedCalls send (s2.air.drop s.air.length)) % 2 ^ 32 := by
        rcases tick_cases send now s s2 hm e2 with ⟨hi, _⟩ | ⟨_, he1, _⟩ | ⟨_, _, _, h1⟩ |
          ⟨_, _, _, x, _, h1⟩
        · unfold Idle at hi
          unfold Running at hr
          omega
        · rw [he0] at he1
          exact absurd he1 (by decide)
        · have hair : s2.air = s.air := by
            rw [h1, (wrapStep_frame _).2.2.2.2.2.2.1, (statusStep_frame now now s).2.2.1]
          have hsum := tick_wait_sum now s
          rw [← h1] at hsum
          rw [hair, List.drop_length, hsum, hn]
          rfl
        · have hv := tick_visit_fields send now x s
          have hsum := tick_visit_sum send now x s
          rw [← h1] at hv hsum
          rw [hv.1, List.drop_left, hsum]
          omega
      obtain ⟨s1, e1, hrun, hidle⟩ := ih s2 (n + acceptedCalls send (s2.air.drop s.air.length))
        hr2 a2 hm2 hstep
      have hacc : accepted ((now, send) :: rest) s =
          acceptedCalls send (s2.air.drop s.air.length) + accepted rest s2 := by
        simp only [accepted, e2]
      refine ⟨s1, ?_, ?_, ?_⟩
      · simp only [ticks, e2]
        exact e1
      · rw [hacc, ← Nat.add_assoc]
        exact hrun
      · rw [hacc, ← Nat.add_assoc]
        exact hidle

/-- C18: after a successful start from a reachable state and any run of ticks,
the run is defined; while the attack runs, `pkts_sent + pkts_per_second` equals,
modulo `2 ^ 32`, the number of calls that the transport accepted since the start,
and `stopDeauth` then leaves that number in `pkts_sent` and writes it in its
report; when a tick of the run has stopped the attack, `pkts_sent` holds that
number and the report at the end of the output sink shows it. -/
theorem packet_accounting (targets : TargetList) (deauth disassoc : Bool)
    (rate timeout pkts : Nat) (silent : Bool) (now : Nat) (prior : Sys)
    (tl : List (Nat × Transport)) (hprior : Reachable prior)
    (ht : targets.size > 0) (hm : deauth = true ∨ disassoc = true) (hr : rate > 0) :
    ∃ s0 caller s1,
      start targets deauth disassoc rate timeout pkts silent now prior = some (s0, caller) ∧
      ticks tl s0 = some s1 ∧
      (Running s1 →
        (s1.deauth_data.pkts_sent + s1.deauth_data.pkts_per_second) % 2 ^ 32 =
            accepted tl s0 % 2 ^ 32 ∧
          (stopDeauth s1).deauth_data.pkts_sent = accepted tl s0 % 2 ^ 32 ∧
          (stopDeauth s1).sink = s1.sink ++ stopReport (accepted tl s0 % 2 ^ 32)) ∧
      (Idle s1 →
        s1.deauth_data.pkts_sent = accepted tl s0 % 2 ^ 32 ∧
          ∃ pre, s1.sink = pre ++ stopReport (accepted tl s0 % 2 ^ 32)) ∧
      (accepted tl s0 < 2 ^ 32 → accepted tl s0 % 2 ^ 32 = accepted tl s0) := by
  obtain ⟨s0, e0, d0, _, _⟩ := startDeauth_ready targets deauth disassoc rate timeout pkts silent
    now now prior hprior.settled ht hm hr
  have hr0 : Running s0 := by
    unfold Running TargetList.size
    rw [d0]
    exact ht
  have hav : s0.deauth_data.targets.available = true := by
    unfold TargetList.size at ht
    simp [d0, TargetList.available, ht]
  have hm0 : s0.deauth_data.deauth = true ∨ s0.deauth_data.disassoc = true := by
    rw [d0]
    exact hm
  obtain ⟨s1, e1, hrun, hidle⟩ := ticks_accounting tl s0 0 hr0 hav hm0 (by rw [d0]; rfl)
  rw [Nat.zero_add] at hrun hidle
  refine ⟨s0, _, s1, e0, e1, fun hr1 => ?_, hidle, Nat.mod_eq_of_lt⟩
  have hsum := hrun hr1
  have hstop := stopDeauth_of_running s1 hr1
  have hu : uadd s1.deauth_data.pkts_sent s1.deauth_data.pkts_per_second =
      accepted tl s0 % 2 ^ 32 := by
    rw [← hsum]
    rfl
  refine ⟨hsum, ?_, ?_⟩
  · rw [hstop]
    exact hu
  · rw [hstop, ← hu]
    rfl

/-- C18, on a start with two targets and both modes at 10 packets per second, with
a cap of 3 packets: four frames are accepted before the tick at 1000 ms moves
them into the total, the tick at 1100 ms stops the attack, and the total and
the report show 4. -/
theorem packet_accounting_witness :
    ∃ s0 caller s1,
      start ⟨[exampleTarget, exampleTarget2], 0⟩ true true 10 0 3 false 0 Sys.init =
        some (s0, caller) ∧
      ticks [(200, acceptAll), (400, refuseAll), (600, acceptAll), (1000, refuseAll),
        (1100, acceptAll)] s0 = some s1 ∧
      accepted [(200, acceptAll), (400, refuseAll), (600, acceptAll), (1000, refuseAll),
        (1100, acceptAll)] s0 = 4 ∧
      Idle s1 ∧ s1.deauth_data.pkts_sent = 4 ∧ ∃ pre, s1.sink = pre ++ stopReport 4 := by
  obtain ⟨s0, c, s1, e0, e1, _, hidle, _⟩ := packet_accounting
    ⟨[exampleTarget, exampleTarget2], 0⟩ true true 10 0 3 false 0 Sys.init
    [(200, acceptAll), (400, refuseAll), (600, acceptAll), (1000, refuseAll), (1100, acceptAll)]
    Reachable.init (by decide) (Or.inl rfl) (by decide)
  have hs0 : s0 = ((start ⟨[exampleTarget, exampleTarget2], 0⟩ true true 10 0 3 false 0
      Sys.init).get (by decide)).1 := by
    simp [e0]
  have hacc : accepted [(200, acceptAll), (400, refuseAll), (600, acceptAll), (1000, refuseAll),
      (1100, acceptAll)] s0 = 4 := by
    rw [hs0]
    decide
  have hi1 : Idle s1 := by
    have : (ticks [(200, acceptAll), (400, refuseAll), (600, acceptAll), (1000, refuseAll),
        (1100, acceptAll)] s0).map (fun s => decide (Idle s)) = some true := by
      rw [hs0]
      decide
    rw [e1] at this
    simpa using this
  have h := hidle hi1
  rw [hacc] at h
  exact ⟨s0, c, s1, e0, e1, hacc, hi1, h.1, h.2⟩

/-! ## Round robin -/

/-- An idle controller makes no calls, whatever the run. -/
theorem firedLog_idle (tl : List (Nat × Transport)) (s : Sys) (h : Idle s) :
    firedLog tl s = [] := by
  unfold firedLog
  induction tl with
  | nil => rfl
  | cons e rest ih =>
    obtain ⟨now, send⟩ := e
    simp only [callLog, tick_idle send now s h, List.drop_length]
    simpa [List.filter_cons] using ih

/-- The first tick of a run made no call. -/
theorem firedLog_quiet (now : Nat) (send : Transport) (rest : List (Nat × Transport))
    (s s1 : Sys) (ht : tick send now s = some s1) (ha : s1.air = s.air) :
    firedLog ((now, send) :: rest) s = firedLog rest s1 := by
  unfold firedLog
  simp only [callLog, ht, ha, List.drop_length]
  simp [List.filter_cons]

/-- The first tick of a run made the calls `g`. -/
theorem firedLog_calls (now : Nat) (send : Transport) (rest : List (Nat × Transport))
    (s s1 : Sys) (g : List SendCall) (ht : tick send now s = some s1)
    (ha : s1.air = s.air ++ g) (hg : g ≠ []) :
    firedLog ((now, send) :: rest) s = g :: firedLog rest s1 := by
  unfold firedLog
  simp only [callLog, ht, ha, List.drop_left]
  cases g with
  | nil => exact absurd rfl hg
  | cons c g1 => simp [List.filter_cons]

/-- The target read off a frame of the layout of `visitCalls_frames`. -/
theorem callTarget_frame (x : Target) (y : Nat) (hd tl : List Nat) (n : Nat)
    (hh : hd.length = 3) (hfrom : x.getFrom.length = 6) (hto : x.getTo.length = 6) :
    callTarget ⟨x.getCh, y :: (hd ++ x.getTo ++ x.getFrom ++ x.getFrom ++ tl), n⟩ = x := by
  obtain ⟨d0, d1, d2, d3, d4, d5, hd6⟩ := list_length_six x.getFrom hfrom
  obtain ⟨e0, e1, e2, e3, e4, e5, he6⟩ := list_length_six x.getTo hto
  match hd, hh with
  | [a, b, c], _ =>
    cases x with
    | mk xf xt xc =>
      simp only at hd6 he6
      subst hd6
      subst he6
      rfl

/-- Every call of a visit addresses the visited target. -/
theorem visitCalls_target (deauth disassoc : Bool) (x : Target) (pkt : List Nat)
    (hp : pkt.length = 26) (hfrom : x.getFrom.length = 6) (hto : x.getTo.length = 6) :
    ∀ c ∈ visitCalls deauth disassoc x pkt, callTarget c = x := by
  have hh : ((pkt.drop 1).take 3).length = 3 := by simp [hp]
  rw [(visitCalls_frames deauth disassoc x pkt hp hfrom hto).1]
  intro c hc
  cases deauth <;> cases disassoc <;>
    simp only [Bool.false_eq_true, if_false, if_true, List.nil_append, List.append_nil,
      List.singleton_append, List.mem_cons, List.mem_singleton, List.not_mem_nil, or_false] at hc
  · rw [hc]
    exact callTarget_frame x _ _ _ _ hh hfrom hto
  · rw [hc]
    exact callTarget_frame x _ _ _ _ hh hfrom hto
  · rcases hc with hc | hc <;> rw [hc] <;> exact callTarget_frame x _ _ _ _ hh hfrom hto

/-- Round robin from any position: on an attack whose cursor stands at position
`p` of the list `L`, the `k`-th tick that makes calls addresses
`L[(p + k) mod N]`, with one call per enabled mode. -/
theorem firedLog_round_robin (tl : List (Nat × Transport)) (s : Sys) (L : List Target)
    (p : Nat) (hL : s.deauth_data.targets = ⟨L, p⟩) (hp : p < L.length)
    (hm : s.deauth_data.deauth = true ∨ s.deauth_data.disassoc = true)
    (hpkt : s.pkt.length = 26)
    (hwf : ∀ x ∈ L, x.getFrom.length = 6 ∧ x.getTo.length = 6) :
    ∀ (k : Nat) (g : List SendCall), (firedLog tl s).get? k = some g →
      g.length = s.deauth_data.deauth.toNat + s.deauth_data.disassoc.toNat ∧
        ∀ c ∈ g, L.get? ((p + k) % L.length) = some (callTarget c) := by
  induction tl generalizing s p with
  | nil =>
    intro k g hg
    simp [firedLog, callLog] at hg
  | cons e rest ih =>
    obtain ⟨now, send⟩ := e
    intro k g hg
    cases ht : tick send now s with
    | none => simp [firedLog, callLog, ht] at hg
    | some s1 =>
      have hlist : s.deauth_data.targets.list = L := by rw [hL]
      have hpos : s.deauth_data.targets.pos = p := by rw [hL]
      have c1 := (tick_pacing send now s s1 ht).1
      have hm1 : s1.deauth_data.deauth = true ∨ s1.deauth_data.disassoc = true := by
        rw [c1.deauth, c1.disassoc]
        exact hm
      rcases tick_cases send now s s1 hm ht with ⟨hi, _⟩ | ⟨hr, _, h1⟩ | ⟨_, _, _, h1⟩ |
        ⟨_, _, _, x, hx, h1⟩
      · unfold Idle TargetList.size at hi
        rw [hlist] at hi
        omega
      · have hair : s1.air = s.air := by rw [h1, (stopDeauth_keeps s).1]
        have hi1 : Idle s1 := by
          rw [h1, stopDeauth_of_running s hr]
          rfl
        rw [firedLog_quiet now send rest s s1 ht hair, firedLog_idle rest s1 hi1] at hg
        simp at hg
      · have hair : s1.air = s.air := by
          rw [h1, (wrapStep_frame _).2.2.2.2.2.2.1, (statusStep_frame now now s).2.2.1]
        have hpkt1 : s1.pkt.length = 26 := by
          rw [h1, (wrapStep_frame _).2.2.2.2.2.2.2.1, (statusStep_frame now now s).2.2.2]
          exact hpkt
        have hL1 : s1.deauth_data.targets = ⟨L, p⟩ := by
          rw [h1, wrapStep_targets, (statusStep_frame now now s).1, hlist, hpos]
          simp [hp]
        rw [firedLog_quiet now send rest s s1 ht hair] at hg
        have := ih s1 p hL1 hp hm1 hpkt1 k g hg
        rw [c1.deauth, c1.disassoc] at this
        exact this
      · have hv := tick_visit_fields send now x s
        rw [← h1] at hv
        rw [hlist, hpos] at hx
        have hxmem : x ∈ L := List.get?_mem hx
        obtain ⟨hfrom, hto⟩ := hwf x hxmem
        have hshape := visitCalls_shape s.deauth_data.deauth s.deauth_data.disassoc x s.pkt
        have hne : visitCalls s.deauth_data.deauth s.deauth_data.disassoc x s.pkt ≠ [] := by
          intro h0
          have hlen := hshape.1
          rw [h0, List.length_nil] at hlen
          rcases hm with h | h <;> rw [h, Bool.toNat_true] at hlen <;> omega
        have hfr := visitCalls_frames s.deauth_data.deauth s.deauth_data.disassoc x s.pkt
          hpkt hfrom hto
        rw [firedLog_calls now send rest s s1 _ ht hv.1 hne] at hg
        cases k with
        | zero =>
          simp only [List.get?_cons_zero, Option.some.injEq] at hg
          subst hg
          refine ⟨hshape.1, fun c hc => ?_⟩
          rw [Nat.add_zero, Nat.mod_eq_of_lt hp, hx,
            visitCalls_target _ _ x s.pkt hpkt hfrom hto c hc]
        | succ k =>
          simp only [List.get?_cons_succ] at hg
          have hL1 : s1.deauth_data.targets =
              ⟨L, if p + 1 < L.length then p + 1 else 0⟩ := by
            rw [hv.2.2.2.1, hlist, hpos]
          have hp1 : (if p + 1 < L.length then p + 1 else 0) < L.length := by
            split <;> omega
          have hpkt1 : s1.pkt.length = 26 := by
            rw [hv.2.1]
            exact hfr.2.1
          have hrec := ih s1 _ hL1 hp1 hm1 hpkt1 k g hg
          rw [c1.deauth, c1.disassoc] at hrec
          refine ⟨hrec.1, fun c hc => ?_⟩
          have hc1 := hrec.2 c hc
          have hidx : ((if p + 1 < L.length then p + 1 else 0) + k) % L.length =
              (p + (k + 1)) % L.length := by
            by_cases hlt : p + 1 < L.length
            · simp only [hlt, if_true]
              congr 1
              omega
            · have hN : p + 1 = L.length := by omega
              simp only [hlt, if_false, Nat.zero_add]
              have : p + (k + 1) = k + L.length := by omega
              rw [this, Nat.add_mod_right]
          rw [← hidx]
          exact hc1

/-- C13: after a successful start with the targets `t0 .. t(N-1)` (six-byte
addresses, 26-byte packet buffer) every run of ticks is defined, and the
`k`-th tick of the run that makes calls to the transport (`k = 0, 1, 2, ...`)
makes one call per enabled mode, each of them addressing `t(k mod N)`: channel,
transmitter and receiver of every call are those of that target. The visits
therefore follow the order of the list and start over after the last target. -/
theorem round_robin (targets : TargetList) (deauth disassoc : Bool)
    (rate timeout pkts : Nat) (silent : Bool) (now : Nat) (prior : Sys)
    (tl : List (Nat × Transport)) (hprior : Reachable prior) (hpkt : prior.pkt.length = 26)
    (hwf : ∀ x ∈ targets.list, x.getFrom.length = 6 ∧ x.getTo.length = 6)
    (ht : targets.size > 0) (hm : deauth = true ∨ disassoc = true) (hr : rate > 0) :
    ∃ s0 caller,
      start targets deauth disassoc rate timeout pkts silent now prior = some (s0, caller) ∧
      (∃ s1, ticks tl s0 = some s1) ∧
      ∀ (k : Nat) (g : List SendCall), (firedLog tl s0).get? k = some g →
        g.length = deauth.toNat + disassoc.toNat ∧
          ∀ c ∈ g, targets.list.get? (k % targets.list.length) = some (callTarget c) := by
  obtain ⟨s0, e0, d0, _, p0⟩ := startDeauth_ready targets deauth disassoc rate timeout pkts silent
    now now prior hprior.settled ht hm hr
  have hset0 : CursorSettled s0 :=
    startDeauth_settled targets deauth disassoc rate timeout pkts silent now now prior s0 _
      hprior.settled e0
  have hL : s0.deauth_data.targets = ⟨targets.list, 0⟩ := by rw [d0]
  have hm0 : s0.deauth_data.deauth = true ∨ s0.deauth_data.disassoc = true := by
    rw [d0]
    exact hm
  have hrr := firedLog_round_robin tl s0 targets.list 0 hL ht hm0 (by rw [p0]; exact hpkt) hwf
  refine ⟨s0, _, e0, ticks_defined tl s0 hset0.2, fun k g hg => ?_⟩
  have h := hrr k g hg
  rw [Nat.zero_add] at h
  rw [d0] at h
  exact h

/-- C13, with two targets and deauthentication only at 10 packets per second: of
the ticks at 100, 150, 200 and 300 ms the one at 150 ms makes no call, and the
three others address the first target, the second, and the first again. -/
theorem round_robin_witness :
    ∃ s0 caller,
      start ⟨[exampleTarget, exampleTarget2], 0⟩ true false 10 0 0 false 0 Sys.init =
        some (s0, caller) ∧
      (firedLog [(100, acceptAll), (150, acceptAll), (200, refuseAll), (300, acceptAll)] s0).map
          (fun g => g.map callTarget) =
        [[exampleTarget], [exampleTarget2], [exampleTarget]] ∧
      ∀ (k : Nat) (g : List SendCall),
        (firedLog [(100, acceptAll), (150, acceptAll), (200, refuseAll), (300, acceptAll)]
          s0).get? k = some g →
        g.length = 1 ∧
          ∀ c ∈ g, [exampleTarget, exampleTarget2].get? (k % 2) = some (callTarget c) := by
  obtain ⟨s0, c, e0, _, h⟩ := round_robin ⟨[exampleTarget, exampleTarget2], 0⟩ true false
    10 0 0 false 0 Sys.init
    [(100, acceptAll), (150, acceptAll), (200, refuseAll), (300, acceptAll)]
    Reachable.init rfl (by decide) (by decide) (Or.inl rfl) (by decide)
  have hs0 : s0 = ((start ⟨[exampleTarget, exampleTarget2], 0⟩ true false 10 0 0 false 0
      Sys.init).get (by decide)).1 := by
    simp [e0]
  refine ⟨s0, c, e0, ?_, h⟩
  rw [hs0]
  decide

/-! ## Clock wrap-around -/

/-- The unsigned difference gives back the elapsed time, whether or not the
counter has wrapped in between. -/
theorem wrapSub_elapsed (w since d : Nat) (hd : d < 2 ^ w) :
    wrapSub w ((since + d) % 2 ^ w) since = d := by
  unfold wrapSub
  have hM : 0 < 2 ^ w := Nat.two_pow_pos w
  have hr : since % 2 ^ w < 2 ^ w := Nat.mod_lt _ hM
  have hdiv : 2 ^ w * (since / 2 ^ w) + since % 2 ^ w = since := Nat.div_add_mod since (2 ^ w)
  have hsum : since + d + (2 ^ w - since % 2 ^ w) = d + 2 ^ w * (since / 2 ^ w + 1) := by
    rw [Nat.mul_add, Nat.mul_one]
    generalize 2 ^ w * (since / 2 ^ w) = q at hdiv
    omega
  calc ((since + d) % 2 ^ w + (2 ^ w - since % 2 ^ w)) % 2 ^ w
      = (since + d + (2 ^ w - since % 2 ^ w)) % 2 ^ w := by
        rw [Nat.add_mod, Nat.mod_mod, ← Nat.add_mod]
    _ = (d + 2 ^ w * (since / 2 ^ w + 1)) % 2 ^ w := by rw [hsum]
    _ = d % 2 ^ w := Nat.add_mul_mod_self_left _ _ _
    _ = d := Nat.mod_eq_of_lt hd

/-- The unsigned difference does not change when both clock values move by the
same amount. -/
theorem usub_shift (a b c : Nat) :
    usub ((a + c) % 2 ^ 32) ((b + c) % 2 ^ 32) = usub a b := by
  unfold usub wrapSub ULONG_BITS
  omega

theorem expired_shift (now c : Nat) (s : Sys) :
    expired ((now + c) % 2 ^ 32) (shiftClock c s).deauth_data = expired now s.deauth_data := by
  simp only [expired, shiftClock, usub_shift]

theorem stopDeauth_shift (c : Nat) (s : Sys) :
    stopDeauth (shiftClock c s) = shiftClock c (stopDeauth s) := by
  unfold stopDeauth
  dsimp only [shiftClock]
  split <;> rfl

theorem statusStep_shift (now c : Nat) (s : Sys) :
    statusStep ((now + c) % 2 ^ 32) ((now + c) % 2 ^ 32) (shiftClock c s) =
      shiftClock c (statusStep now now s) := by
  unfold statusStep
  dsimp only [shiftClock]
  rw [usub_shift]
  split <;> rfl

theorem sendStep_shift (send : Transport) (now c : Nat) (s : Sys) :
    sendStep send ((now + c) % 2 ^ 32) ((now + c) % 2 ^ 32) (shiftClock c s) =
      (sendStep send now now s).map (shiftClock c) := by
  unfold sendStep
  dsimp only [shiftClock]
  rw [usub_shift]
  by_cases hf : s.deauth_data.pkt_interval ≤ usub now s.deauth_data.pkt_time
  · simp only [ge_iff_le, hf, if_true]
    cases hit : s.deauth_data.targets.iterate.1 <;>
      cases hd : s.deauth_data.deauth <;> cases ha : s.deauth_data.disassoc <;>
      simp [deauthLine, disassocLine, send_deauth, send_disassoc, shiftClock, hd, ha]
  · simp [hf, shiftClock]

theorem wrapStep_shift (c : Nat) (s : Sys) :
    wrapStep (shiftClock c s) = shiftClock c (wrapStep s) := by
  unfold wrapStep
  dsimp only [shiftClock]
  split <;> rfl

/-- A tick does the same when the counter runs `c` ahead, wrapped or not. -/
theorem tick_shift (send : Transport) (now c : Nat) (s : Sys) :
    tick send ((now + c) % 2 ^ 32) (shiftClock c s) = (tick send now s).map (shiftClock c) := by
  unfold tick updateDeauth
  rw [expired_shift, stopDeauth_shift, statusStep_shift, sendStep_shift]
  have hsize : (shiftClock c s).deauth_data.targets.size = s.deauth_data.targets.size := rfl
  rw [hsize]
  by_cases hr : s.deauth_data.targets.size > 0
  · simp only [hr, if_true]
    by_cases he : expired now s.deauth_data = true
    · simp only [he, if_true, Option.map_some']
    · simp only [he, Bool.false_eq_true, if_false]
      cases h2 : sendStep send now now (statusStep now now s) with
      | none => rfl
      | some s2 =>
        simp only [Option.map_some', wrapStep_shift]
  · simp only [hr, if_false, Option.map_some']

/-- C17: for a counter of `w` bits, a reference time `since` and an elapsed time
`d < 2 ^ w`, the unsigned difference between `now = (since + d) mod 2 ^ w` and
`since` is `d`. With `w = 32` the three comparisons of `updateDeauth` therefore
see the elapsed time: the termination test reads `d` against the timeout, the
status block fires from `d ≥ 1000` on, the send block from `d ≥ pkt_interval`
on; and a tick does the same when all clock values are moved by any amount,
across the wrap-around or not. -/
theorem clock_wraparound (w since d : Nat) (hd : d < 2 ^ w) :
    wrapSub w ((since + d) % 2 ^ w) since = d ∧
    (w = 32 →
      usub ((since + d) % 2 ^ 32) since = d ∧
      (∀ dd : deauth_attack_data_t, dd.start_time = since →
        (expired ((since + d) % 2 ^ 32) dd = true ↔
          (dd.timeout > 0 ∧ d > dd.timeout) ∨ (dd.pkts > 0 ∧ dd.pkts_sent ≥ dd.pkts))) ∧
      (∀ s : Sys, s.deauth_data.output_time = since → s.deauth_data.silent = false →
        (statusStep ((since + d) % 2 ^ 32) ((since + d) % 2 ^ 32) s ≠ s ↔ 1000 ≤ d)) ∧
      (∀ (send : Transport) (s : Sys), s.deauth_data.pkt_time = since →
        d < s.deauth_data.pkt_interval →
        sendStep send ((since + d) % 2 ^ 32) ((since + d) % 2 ^ 32) s = some s)) ∧
    (∀ (send : Transport) (now c : Nat) (s : Sys),
      tick send ((now + c) % 2 ^ 32) (shiftClock c s) =
        (tick send now s).map (shiftClock c)) := by
  refine ⟨wrapSub_elapsed w since d hd, fun hw => ?_, tick_shift⟩
  subst hw
  have hu : usub ((since + d) % 2 ^ 32) since = d := wrapSub_elapsed 32 since d hd
  refine ⟨hu, fun dd hs => ?_, fun s ho hsil => ?_, fun send s hp hlt => ?_⟩
  · rw [expired_iff, hs, hu]
  · rcases statusStep_cases ((since + d) % 2 ^ 32) ((since + d) % 2 ^ 32) s with
      ⟨h, hc⟩ | ⟨h, _, hc⟩
    · rw [ho, hu, hsil] at hc
      rw [h]
      constructor
      · intro hne
        exact absurd rfl hne
      · intro hge
        rcases hc with hc | hc
        · exact absurd hc (by decide)
        · omega
    · rw [ho, hu] at hc
      constructor
      · intro _
        exact hc
      · intro _ heq
        have hsink := congrArg (fun r => r.sink.length) heq
        rw [h] at hsink
        simp at hsink
  · apply sendStep_wait
    rw [hp, hu]
    exact hlt

/-- C17, for the 32-bit counter: 100 ms before the wrap-around plus 250 ms gives
the clock value 150, and the unsigned difference is 250. -/
theorem clock_wraparound_witness :
    (4294967196 + 250) % 2 ^ 32 = 150 ∧ wrapSub 32 150 4294967196 = 250 ∧
      usub 150 4294967196 = 250 := by
  have h := clock_wraparound 32 4294967196 250 (by decide)
  have hnow : (4294967196 + 250) % 2 ^ 32 = 150 := by decide
  rw [hnow] at h
  exact ⟨hnow, h.1, (h.2.1 rfl).1⟩

end Deauther
